import Mathlib

/-!
Verification of the rhino_mcp command bridge against its specification.

The development shallowly embeds the Python sources:
  * `src/rhino_script.py` — the Rhino-side socket server: command dispatch
    (`execute_command`), the metadata tagging and query layer
    (`_add_rhino_object_metadata`, `_get_rhino_objects_with_metadata`),
    scripted code execution (`_execute_rhino_code`), layer listing
    (`_get_rhino_layers`) and the viewport capture routine
    (`_capture_rhino_viewport`).
  * `src/rhino_mcp/rhino_tools.py` — the agent-facing tool layer.

Modelling conventions:
  * numeric values (coordinates, timestamps) are integers — the claims under
    study concern string round-trips, counts and structure, never float
    arithmetic;
  * the per-object string attribute store (`rs.GetUserText`/`rs.SetUserText`)
    is an association list in insertion order;
  * host primitives that are external to the repository (bitmap capture,
    Grasshopper, scene info) are parameters of an environment record;
  * agent scripts passed to `exec` are abstracted as sequences of the three
    effects the claims mention: printing a line, assigning the `result`
    variable, and raising an exception.
-/

namespace RhinoMCP

/-! ## Decimal digits and integer strings (models Python `str` on integers) -/

/-- Character for a single decimal digit. -/
def digitChar : Nat → Char
  | 0 => '0' | 1 => '1' | 2 => '2' | 3 => '3' | 4 => '4'
  | 5 => '5' | 6 => '6' | 7 => '7' | 8 => '8' | _ => '9'

/-- Numeric value of a decimal digit character. -/
def digitVal (c : Char) : Nat := c.toNat - 48

/-- Fuel-driven digit emitter (most significant digit first). -/
def natDigitsAux : Nat → Nat → List Char → List Char
  | 0, _, acc => acc
  | f + 1, n, acc =>
    if n < 10 then digitChar n :: acc
    else natDigitsAux f (n / 10) (digitChar (n % 10) :: acc)

/-- Decimal digits of a natural number, as produced by Python `str`. -/
def natDigits (n : Nat) : List Char := natDigitsAux (n + 1) n []

/-- Value of a digit string read left to right. -/
def digitsToNat (l : List Char) : Nat :=
  l.foldl (fun a c => 10 * a + digitVal c) 0

/-- Decimal character rendering of an integer, as Python `str` prints it. -/
def encInt (n : Int) : List Char :=
  if n < 0 then '-' :: natDigits n.natAbs else natDigits n.natAbs

/-- String form of an integer. -/
def intStr (n : Int) : String := ⟨encInt n⟩

/-! ## JSON encoding of the bounding box (models `json.dumps` on a nested
integer array) and the corresponding fragment of `json.loads`. -/

/-- Join character lists with the `", "` separator `json.dumps` uses. -/
def commaJoin : List (List Char) → List Char
  | [] => []
  | x :: xs => x ++ (xs.map (fun e => ',' :: ' ' :: e)).flatten

/-- One point `[x, y, z]` rendered as by `json.dumps`. -/
def encPoint (p : List Int) : List Char :=
  '[' :: commaJoin (p.map encInt) ++ [']']

/-- A bounding box `[[..], [..], ...]` rendered as by `json.dumps`. -/
def encBBoxChars (l : List (List Int)) : List Char :=
  '[' :: commaJoin (l.map encPoint) ++ [']']

/-- String stored for the `bbox` key by `_add_rhino_object_metadata`
(`json.dumps(bbox_data)`). -/
def encodeBBox (l : List (List Int)) : String := ⟨encBBoxChars l⟩

/-- Skip blanks, as `json.loads` does between tokens. -/
def skipSpaces : List Char → List Char
  | [] => []
  | c :: cs => if c = ' ' then skipSpaces cs else c :: cs

/-- Consume a maximal run of digits, accumulating their value. -/
def parseDigitsAux : List Char → Nat → Nat × List Char
  | [], acc => (acc, [])
  | c :: cs, acc =>
    if c.isDigit then parseDigitsAux cs (10 * acc + digitVal c) else (acc, c :: cs)

/-- Parse an optionally signed decimal integer. -/
def parseInt : List Char → Option (Int × List Char)
  | [] => none
  | c :: cs =>
    if c = '-' then
      (match cs with
       | [] => none
       | d :: ds =>
         if d.isDigit then
           let r := parseDigitsAux ds (digitVal d)
           some (-(r.1 : Int), r.2)
         else none)
    else if c.isDigit then
      let r := parseDigitsAux cs (digitVal c)
      some ((r.1 : Int), r.2)
    else none

/-- Parse the remaining elements of an integer array, after its first
element: repeated `, <int>` and a closing bracket. -/
def parseIntsAfter : Nat → List Char → Option (List Int × List Char)
  | fuel, s =>
    match skipSpaces s with
    | [] => none
    | c :: r =>
      if c = ']' then some ([], r)
      else if c = ',' then
        (match fuel with
         | 0 => none
         | f + 1 =>
           match parseInt (skipSpaces r) with
           | some nr =>
             (match parseIntsAfter f nr.2 with
              | some nsr => some (nr.1 :: nsr.1, nsr.2)
              | none => none)
           | none => none)
      else none

/-- Parse one `[x, y, z]` array of integers. -/
def parsePointAt (s : List Char) : Option (List Int × List Char) :=
  match skipSpaces s with
  | [] => none
  | c :: r =>
    if c = '[' then
      (match skipSpaces r with
       | [] => none
       | d :: r₂ =>
         if d = ']' then some ([], r₂)
         else
           match parseInt (d :: r₂) with
           | some nr =>
             (match parseIntsAfter nr.2.length nr.2 with
              | some nsr => some (nr.1 :: nsr.1, nsr.2)
              | none => none)
           | none => none)
    else none

/-- Parse the remaining points of a point array, after the first point. -/
def parsePointsAfter : Nat → List Char → Option (List (List Int) × List Char)
  | fuel, s =>
    match skipSpaces s with
    | [] => none
    | c :: r =>
      if c = ']' then some ([], r)
      else if c = ',' then
        (match fuel with
         | 0 => none
         | f + 1 =>
           match parsePointAt r with
           | some pr =>
             (match parsePointsAfter f pr.2 with
              | some psr => some (pr.1 :: psr.1, psr.2)
              | none => none)
           | none => none)
      else none

/-- The fragment of `json.loads` exercised by the metadata layer: a JSON
array of arrays of integers, with nothing but blanks allowed after it.
Any other input is a decode failure (`None` here, an exception in Python,
which the caller turns into `[]`). -/
def parseBBoxChars (s : List Char) : Option (List (List Int)) :=
  match skipSpaces s with
  | [] => none
  | c :: r =>
    if c = '[' then
      (match skipSpaces r with
       | [] => none
       | d :: r₂ =>
         if d = ']' then (if (skipSpaces r₂).isEmpty then some [] else none)
         else
           match parsePointAt (d :: r₂) with
           | some pr =>
             (match parsePointsAfter pr.2.length pr.2 with
              | some psr =>
                if (skipSpaces psr.2).isEmpty then some (pr.1 :: psr.1) else none
              | none => none)
           | none => none)
    else none

/-- `json.loads` applied to a stored `bbox` string. -/
def parseBBox (s : String) : Option (List (List Int)) := parseBBoxChars s.data

/-- `float(value)` applied to a stored `created_at` string, restricted to the
integer-valued timestamps of this model; malformed input is `none`
(an exception in Python, which the caller turns into `0`). -/
def parseCreatedAt (s : String) : Option Int :=
  match parseInt s.data with
  | some (n, []) => some n
  | _ => none

/-! ## The filter patterns of `_get_rhino_objects_with_metadata`

The source builds `pattern = "^" + filter.replace("*", ".*") + "$"` and calls
`re.match(pattern, text, re.IGNORECASE)`.  We compile the filter into the
token stream of that regex — each `*` of the filter stands for the regex
atom `.*`, each `.` for the regex atom `.`, every other character for a
case-insensitive literal — and interpret the tokens with Python's `re`
semantics: `.` matches any character except a newline, and the trailing `$`
accepts the end of the text or a position just before one final newline.
The model covers filters whose characters are not among the remaining regex
metacharacters (`\\ ^ $ | ? + ( ) [ ] { }`); theorems that quantify over
filters restrict to that supported fragment. -/

/-- Token of the compiled filter pattern. -/
inductive RTok where
  | lit (c : Char)
  | dot
  | star
deriving DecidableEq

/-- Compile a filter string (after `.replace("*", ".*")`) into regex tokens. -/
def compilePattern : List Char → List RTok
  | [] => []
  | c :: cs =>
    (if c = '*' then RTok.star else if c = '.' then RTok.dot else RTok.lit c)
      :: compilePattern cs

/-- Acceptance condition of the trailing `$` in Python `re`: end of text, or
just before one final newline. -/
def reEndOk (s : List Char) : Bool := s.isEmpty || s = ['\n']

/-- Fuel-driven matcher for the compiled pattern against a text; the fuel is
a bound on `tokens.length + text.length`. -/
def tokMatchF : Nat → List RTok → List Char → Bool
  | 0, _, _ => false
  | _ + 1, [], s => reEndOk s
  | f + 1, RTok.lit c :: ts, s =>
    (match s with
     | [] => false
     | d :: s' => (c.toLower = d.toLower) && tokMatchF f ts s')
  | f + 1, RTok.dot :: ts, s =>
    (match s with
     | [] => false
     | d :: s' => (d ≠ '\n') && tokMatchF f ts s')
  | f + 1, RTok.star :: ts, s =>
    tokMatchF f ts s ||
      (match s with
       | [] => false
       | d :: s' => (d ≠ '\n') && tokMatchF f (RTok.star :: ts) s')

/-- Anchored case-insensitive match of a compiled filter pattern, i.e.
`re.match("^" + f.replace("*", ".*") + "$", s, re.IGNORECASE)` is truthy. -/
def tokMatch (ts : List RTok) (s : List Char) : Bool :=
  tokMatchF (ts.length + s.length + 1) ts s

/-- The layer/name filter test used inside the object loop. -/
def codeFilterMatch (f s : String) : Bool :=
  tokMatch (compilePattern f.data) s.data

/-- Regex metacharacters other than `*` that the filter compiler does not
model; filters containing them fall outside the embedding's domain. -/
def regexSpecials : List Char :=
  ['.', '\\', '^', '$', '|', '?', '+', '(', ')', '[', ']',
   Char.ofNat 123, Char.ofNat 125]

/-- Spec-worded wildcard matcher ("replace each `*` with zero or more
characters, anchored, case-insensitive; every other character stands for
itself"): the refinement target the claim describes, to be compared with
`codeFilterMatch`.  Fuel bounds `p.length + s.length`. -/
def specMatchF : Nat → List Char → List Char → Bool
  | 0, _, _ => false
  | f + 1, p, s =>
    match p with
    | [] => s.isEmpty
    | c :: ps =>
      if c = '*' then
        specMatchF f ps s ||
          (match s with
           | [] => false
           | _ :: s' => specMatchF f (c :: ps) s')
      else
        match s with
        | [] => false
        | d :: s' => (c.toLower = d.toLower) && specMatchF f ps s'

/-- Anchored case-insensitive wildcard match as the specification words it. -/
def specWildcardMatch (p s : String) : Bool :=
  specMatchF (p.data.length + s.data.length + 1) p.data s.data

/-! ## Data model -/

/-- A 3D point; coordinates are modelled as integers. -/
structure Point3 where
  x : Int
  y : Int
  z : Int
deriving DecidableEq

/-- A document object as the embedded handlers see it: its id string, its
optional `Name` attribute, the name of its geometry's type (`obj.Geometry`
can be null, in which case `obj.Geometry.GetType()` raises), its layer path,
its string attribute store (`user text`), and its bounding-box corners
(`rs.BoundingBox` yields a point list or `None`). -/
structure RhinoObject where
  id : String
  name : Option String
  geometry : Option String
  layer : String
  userText : List (String × String)
  bboxCorners : Option (List Point3)
deriving DecidableEq

/-- A document layer (`doc.Layers` entry). -/
structure LayerInfo where
  index : Int
  name : String
  fullPath : String
  objectCount : Int
  isVisible : Bool
  isLocked : Bool
deriving DecidableEq

/-- The document state the embedded handlers read and write.  Annotation
text dots are tracked as a separate pool of ids with a fresh-id counter. -/
structure RhinoDoc where
  objects : List RhinoObject
  layers : List LayerInfo
  currentLayer : String
  dots : List Nat
  nextDotId : Nat
deriving DecidableEq

/-- The `filters` parameter of `get_rhino_objects_with_metadata`. -/
structure FilterSpec where
  layer : Option String
  name : Option String
  short_id : Option String
deriving DecidableEq

/-- A metadata value after the query's coercions: plain string, numeric
`created_at`, or decoded `bbox` point list. -/
inductive StoredVal where
  | s (v : String)
  | num (n : Int)
  | pts (l : List (List Int))
deriving DecidableEq

/-- One entry of the `objects` array in a successful query response. -/
structure ObjData where
  id : String
  name : String
  type : String
  layer : String
  metadata : Option (List (String × StoredVal))
  userText : Option (List (String × StoredVal))
deriving DecidableEq

/-- A layer entry of the `get_rhino_layers` response. -/
structure LayerEntry where
  id : Int
  name : String
  objectCount : Int
  isVisible : Bool
  isLocked : Bool
deriving DecidableEq

/-- One abstract statement of an agent script run by `_execute_rhino_code`:
the `exec` of arbitrary Python is external to the repository, so scripts are
modelled by the three effects the handler observes — a captured `print`, an
assignment to the `result` variable, and a raised exception. -/
inductive Stmt where
  | printLn (s : String)
  | setResult (s : String)
  | raiseErr (msg : String)
deriving DecidableEq

/-- Response dictionaries, one constructor per shape occurring in the
source.  `success` is the bare `{"status": "success"}`; `errorFields` is the
`{"status": "error", "message", "available_fields"}` shape of the metadata
query; `imageResp`/`captureErr` are the two return shapes of
`_capture_rhino_viewport`. -/
inductive Response where
  | success
  | error (message : String)
  | errorFields (message : String) (availableFields : List String)
  | listObjects (count : Nat) (objects : List ObjData) (availableFields : List String)
  | layers (entries : List LayerEntry)
  | execOk (result : String) (printedOutput : List String)
  | execErr (message : String) (printedOutput : List String)
  | imageResp (mediaType : String) (data : String)
  | captureErr (text : String)
  | extResp (tag : String)
deriving DecidableEq

/-! ## Attribute store and small helpers -/

/-- First-match association lookup (`rs.GetUserText(obj_id, key)` and Python
dict membership both resolve a key to at most one value). -/
def alookup {α : Type} : List (String × α) → String → Option α
  | [], _ => none
  | (k₀, v₀) :: rest, k => if k₀ = k then some v₀ else alookup rest k

/-- `rs.SetUserText(obj_id, key, value)`: overwrite the key in place if
present, else append it. -/
def setUserText : List (String × String) → String → String → List (String × String)
  | [], k, v => [(k, v)]
  | (k₀, v₀) :: rest, k, v =>
    if k₀ = k then (k, v) :: rest else (k₀, v₀) :: setUserText rest k v

/-- Write a batch of key/value pairs with `rs.SetUserText`, one at a time. -/
def writeAll (store : List (String × String)) (entries : List (String × String)) :
    List (String × String) :=
  entries.foldl (fun s kv => setUserText s kv.1 kv.2) store

/-- Python truthiness of an optional string (`if layer_filter:`):
present and nonempty. -/
def strTruthy : Option String → Bool
  | none => false
  | some s => !s.isEmpty

/-- Python truthiness of an optional list (`if metadata_fields:`):
present and nonempty. -/
def listTruthy : Option (List String) → Bool
  | none => false
  | some l => !l.isEmpty

/-- `VALID_METADATA_FIELDS['required']`. -/
def requiredFields : List String := ["id", "name", "type", "layer"]

/-- `VALID_METADATA_FIELDS['optional']`. -/
def optionalFields : List String :=
  ["short_id", "created_at", "bbox", "description", "user_text"]

/-- `all_fields = VALID_METADATA_FIELDS['required'] + VALID_METADATA_FIELDS['optional']`. -/
def allFields : List String := requiredFields ++ optionalFields

/-- `", ".join(items)`. -/
def joinComma (items : List String) : String := String.intercalate ", " items

/-- `"\n".join(items)`. -/
def joinNL (items : List String) : String := String.intercalate "\n" items

/-- The message of the exception raised by `obj.Geometry.GetType()` when
`obj.Geometry` is null — the one unguarded per-object failure point of the
query loop (the sibling handlers guard it with `if obj.Geometry else
"Unknown"`; this loop does not). -/
def attrErrMsg : String := "'NoneType' object has no attribute 'GetType'"

/-! ## The query: `_get_rhino_objects_with_metadata` -/

/-- The three sequential filter tests of the object loop: a truthy `layer`
or `name` filter is compiled to an anchored case-insensitive pattern, a
truthy `short_id` filter is compared for string equality with the stored
`short_id` (missing stored value is normalised to `""` by `or ""`).  A
falsy filter field is skipped. -/
def passesFilters (fs : FilterSpec) (o : RhinoObject) : Bool :=
  (if strTruthy fs.layer then codeFilterMatch (fs.layer.getD "") o.layer else true) &&
  (if strTruthy fs.name then codeFilterMatch (fs.name.getD "") (o.name.getD "") else true) &&
  (if strTruthy fs.short_id then
     ((alookup o.userText "short_id").getD "" = fs.short_id.getD "") else true)

/-- The per-key coercions applied when reading the store: `bbox` through
`json.loads` (decode failure yields `[]`), `created_at` through `float`
(failure yields `0`), everything else kept as a string. -/
def coerceStored (kv : String × String) : String × StoredVal :=
  if kv.1 = "bbox" then (kv.1, StoredVal.pts ((parseBBox kv.2).getD []))
  else if kv.1 = "created_at" then (kv.1, StoredVal.num ((parseCreatedAt kv.2).getD 0))
  else (kv.1, StoredVal.s kv.2)

/-- Assemble one object's response entry, given that reading its geometry
type succeeded (`g` is `obj.Geometry.GetType().Name`). -/
def mkObjData (o : RhinoObject) (g : String) (mf : Option (List String)) : ObjData :=
  let stored := o.userText.map coerceStored
  let metadata :=
    if listTruthy mf then
      (mf.getD []).filterMap (fun k => (alookup stored k).map (fun v => (k, v)))
    else stored.filter (fun kv => !(requiredFields.contains kv.1))
  let userText :=
    if !listTruthy mf || (mf.getD []).contains "user_text" then
      (let ut := stored.filter (fun kv => (alookup metadata kv.1).isNone)
       if ut.isEmpty then none else some ut)
    else none
  { id := o.id, name := o.name.getD "Unnamed", type := g, layer := o.layer,
    metadata := if metadata.isEmpty then none else some metadata,
    userText := userText }

/-- The object loop.  Each filter-passing object is assembled; reading a
null geometry raises, which aborts the whole loop (there is no per-object
`try` in this function). -/
def buildObjects (fs : FilterSpec) (mf : Option (List String)) :
    List RhinoObject → Except String (List ObjData)
  | [] => Except.ok []
  | o :: os =>
    if passesFilters fs o then
      match o.geometry with
      | none => Except.error attrErrMsg
      | some g => (buildObjects fs mf os).map (fun l => mkObjData o g mf :: l)
    else buildObjects fs mf os

/-- The invalid names among a truthy `metadata_fields` argument. -/
def invalidFields (mf : Option (List String)) : List String :=
  if listTruthy mf then (mf.getD []).filter (fun f => !(allFields.contains f)) else []

/-- `_get_rhino_objects_with_metadata`: validate the requested field names
before touching any object, then run the filtered loop; an exception inside
the loop reaches the outer `except`, which also reports `available_fields`. -/
def get_rhino_objects_with_metadata (doc : RhinoDoc) (fs : FilterSpec)
    (mf : Option (List String)) : Response :=
  let invalid := invalidFields mf
  if !invalid.isEmpty then
    Response.errorFields ("Invalid metadata fields: " ++ joinComma invalid) allFields
  else
    match buildObjects fs mf doc.objects with
    | Except.ok objs => Response.listObjects objs.length objs allFields
    | Except.error e => Response.errorFields e allFields

/-- Ids of the objects of a successful query response. -/
def respObjIds : Response → List String
  | Response.listObjects _ objs _ => objs.map (fun o => o.id)
  | _ => []

/-- Whether a response is the success shape of the query. -/
def isSuccessList : Response → Bool
  | Response.listObjects _ _ _ => true
  | _ => false

/-! ## Tagging: `_add_rhino_object_metadata` -/

/-- Replace the first element satisfying the predicate (host object tables
resolve an id to one object; updates through `rs` touch that object only). -/
def updateFirst {α : Type} (p : α → Bool) (f : α → α) : List α → List α
  | [] => []
  | x :: xs => if p x then f x :: xs else x :: updateFirst p f xs

/-- The name the tagging call stores and assigns: the caller's truthy
`name`, else the auto-generated `"{type}_{short_id}"`. -/
def metaStoredName (name? : Option String) (g sid : String) : String :=
  if strTruthy name? then name?.getD "" else g ++ "_" ++ sid

/-- The key/value pairs the tagging call writes into the attribute store,
in the order of the source's `metadata` dictionary construction; `bbox` is
the `json.dumps` string, `created_at` the stringified timestamp, and
`description` is present only when the caller's argument is truthy. -/
def metaEntries (o : RhinoObject) (name? desc? : Option String) (sid : String)
    (t : Int) (g : String) : List (String × String) :=
  [("short_id", sid), ("created_at", intStr t), ("layer", o.layer), ("type", g),
   ("bbox", encodeBBox ((o.bboxCorners.getD []).map (fun p => [p.x, p.y, p.z]))),
   ("name", metaStoredName name? g sid)] ++
  (if strTruthy desc? then [("description", desc?.getD "")] else [])

/-- The in-place update the tagging call performs on the found object:
`rs.ObjectName` assigns the stored name and the `rs.SetUserText` loop writes
the metadata entries. -/
def metaUpd (o : RhinoObject) (name? desc? : Option String) (sid : String)
    (t : Int) (g : String) (x : RhinoObject) : RhinoObject :=
  { x with name := some (metaStoredName name? g sid),
           userText := writeAll x.userText (metaEntries o name? desc? sid t g) }

/-- `_add_rhino_object_metadata(obj_id, name, description)`.  `sid` is the
`datetime.now().strftime("%d%H%M%S")` value and `t` the `time.time()` value
of the call.  The handler reads the bounding box and geometry type, decides
the stored name, assigns that name to the object, and writes every metadata
entry into the attribute store as a string, with `bbox` flattened by
`json.dumps`.  A missing object or a null geometry raises; the handler's
`except` converts that to an error response. -/
def add_rhino_object_metadata (doc : RhinoDoc) (objId : String)
    (name? desc? : Option String) (sid : String) (t : Int) : RhinoDoc × Response :=
  match doc.objects.find? (fun o => o.id = objId) with
  | none => (doc, Response.error "Unable to find object")
  | some o =>
    match o.geometry with
    | none => (doc, Response.error attrErrMsg)
    | some g =>
      ({ doc with
          objects := updateFirst (fun x => x.id = objId)
                       (metaUpd o name? desc? sid t g) doc.objects },
       Response.success)

/-- Keys written into the store by a tagging call that supplies a truthy
description. -/
def writtenKeysWithDesc : List String :=
  ["short_id", "created_at", "layer", "type", "bbox", "name", "description"]

/-! ## `_execute_rhino_code` -/

/-- Run a script: prints accumulate in order, `setResult` updates the
`result` variable, the first `raiseErr` aborts with its message.  Returns
(captured prints, final `result` variable, error). -/
def runScriptAux : List Stmt → List String → Option String →
    List String × Option String × Option String
  | [], out, res => (out, res, none)
  | Stmt.printLn s :: k, out, res => runScriptAux k (out ++ [s]) res
  | Stmt.setResult s :: k, out, _ => runScriptAux k out (some s)
  | Stmt.raiseErr m :: _, out, res => (out, res, some m)

/-- `_execute_rhino_code(params)`: empty code is rejected; otherwise the
script runs with a capturing print sink, and the response carries the
declared `result` (or the default success string) with all captured prints,
or — on an exception — the error message with the prints captured before
the error. -/
def execute_rhino_code (code : List Stmt) : Response :=
  if code.isEmpty then Response.error "No code provided"
  else
    let r := runScriptAux code [] none
    match r.2.2 with
    | some m => Response.execErr m r.1
    | none => Response.execOk ((r.2.1).getD "Code executed successfully") r.1

/-- Prints captured before the first raised error (all prints when the
script raises nothing). -/
def scriptPrints : List Stmt → List String
  | [] => []
  | Stmt.printLn s :: k => s :: scriptPrints k
  | Stmt.setResult _ :: k => scriptPrints k
  | Stmt.raiseErr _ :: _ => []

/-- Message of the first raised error, if any. -/
def scriptError : List Stmt → Option String
  | [] => none
  | Stmt.raiseErr m :: _ => some m
  | _ :: k => scriptError k

/-- First-of-two option choice. -/
def optOr {α : Type} : Option α → Option α → Option α
  | some x, _ => some x
  | none, b => b

/-- The script's declared `result` variable: its last assignment. -/
def scriptResult : List Stmt → Option String
  | [] => none
  | Stmt.setResult s :: k => optOr (scriptResult k) (some s)
  | _ :: k => scriptResult k

/-! ## `_get_rhino_layers` -/

/-- `_get_rhino_layers`: id, name, object count, visibility and lock state
per layer. -/
def get_rhino_layers (doc : RhinoDoc) : Response :=
  Response.layers (doc.layers.map (fun l =>
    { id := l.index, name := l.name, objectCount := l.objectCount,
      isVisible := l.isVisible, isLocked := l.isLocked }))

/-! ## Host environment

Host primitives external to the repository (wall clock, bitmap capture,
image encoding, Grasshopper, interactive selection, scene info, geometry
creation) are fields of an environment record; every embedded handler that
needs one takes the environment as an argument. -/

/-- External host behaviour for one call. -/
structure Env where
  sceneInfo : RhinoDoc → Response
  createCube : RhinoDoc → RhinoDoc × Response
  selectedObjects : RhinoDoc → Response
  ghAddComponents : Response
  ghDefinitionInfo : Response
  ghRunSolver : Response
  ghClearCanvas : Response
  ghListComponents : Response
  nowShortId : String
  nowTime : Int
  addDotOk : Nat → Bool
  bitmap : Option (Int × Int)
  encodeImage : Int → Int → String

/-! ## `_capture_rhino_viewport` -/

/-- The name of the temporary annotation layer (`ANNOTATION_LAYER`). -/
def annotationLayerName : String := "MCP_Annotations"

/-- Python truthiness of `rs.BoundingBox`'s result: a nonempty point list. -/
def bboxTruthy : Option (List Point3) → Bool
  | none => false
  | some l => !l.isEmpty

/-- The annotation loop of `_capture_rhino_viewport`: for each object (on
the requested layer, with a truthy bounding box) ensure a stored `short_id`
(writing one when missing), then create a text dot.  `base + c` is the id
of the `c`-th dot created.  `env.addDotOk c = false` models
`rs.AddTextDot` failing (returning `None`), upon which the following
`rs.TextDotHeight(None, 8)` raises — the loop aborts there, with the dots
created so far already in the document.  Returns the (partially) updated
objects, the created dot ids, and the error if one was raised. -/
def annotateObjects (env : Env) (layerName : Option String) (base : Nat) :
    List RhinoObject → Nat → List RhinoObject × List Nat × Option String
  | [], _ => ([], [], none)
  | o :: os, c =>
    if strTruthy layerName && !(o.layer = layerName.getD "") then
      let r := annotateObjects env layerName base os c
      (o :: r.1, r.2)
    else if !(bboxTruthy o.bboxCorners) then
      let r := annotateObjects env layerName base os c
      (o :: r.1, r.2)
    else
      let sid := (alookup o.userText "short_id").getD ""
      let o' := if sid.isEmpty then
          { o with userText := setUserText o.userText "short_id" env.nowShortId }
        else o
      if env.addDotOk c then
        let r := annotateObjects env layerName base os (c + 1)
        (o' :: r.1, (base + c) :: r.2.1, r.2.2)
      else
        (o' :: os, [], some "Could not convert None into Guid")

/-- `_capture_rhino_viewport(params)`.  Reads the current layer, optionally
runs the annotation phase (ensuring the annotation layer exists and making
it current, then creating one text dot per object), then captures and
encodes the viewport inside a `try` whose `finally` deletes the temporary
dots and restores the current layer.  An exception during the annotation
phase skips that `finally` and reaches the outer `except`, which restores
the current layer (only) and returns a text error. -/
def capture_rhino_viewport (env : Env) (doc : RhinoDoc) (layerName : Option String)
    (showAnnotations : Bool) (maxSize : Int) : RhinoDoc × Response :=
  let originalLayer := doc.currentLayer
  let ann :=
    if showAnnotations then
      let layers' :=
        if doc.layers.any (fun l => l.name = annotationLayerName) then doc.layers
        else doc.layers ++
          [{ index := (doc.layers.length : Int), name := annotationLayerName,
             fullPath := annotationLayerName, objectCount := 0,
             isVisible := true, isLocked := false }]
      let r := annotateObjects env layerName doc.nextDotId doc.objects 0
      ({ doc with layers := layers', currentLayer := annotationLayerName,
                  objects := r.1, dots := doc.dots ++ r.2.1,
                  nextDotId := doc.nextDotId + r.2.1.length },
       r.2.1, r.2.2)
    else (doc, ([] : List Nat), (none : Option String))
  match ann.2.2 with
  | some e =>
    ({ ann.1 with currentLayer := originalLayer },
     Response.captureErr ("Error capturing viewport: " ++ e))
  | none =>
    let capR : Except String String :=
      match env.bitmap with
      | none => Except.error "CaptureToBitmap failed"
      | some wh =>
        let dims := if wh.1 > wh.2 then (maxSize, wh.2 * maxSize / wh.1)
                    else (wh.1 * maxSize / wh.2, maxSize)
        Except.ok (env.encodeImage dims.1 dims.2)
    let doc₂ := { ann.1 with dots := ann.1.dots.filter (fun d => ¬ d ∈ ann.2.1),
                             currentLayer := originalLayer }
    match capR with
    | Except.ok data => (doc₂, Response.imageResp "image/jpeg" data)
    | Except.error e => (doc₂, Response.captureErr ("Error capturing viewport: " ++ e))

/-- The error component of the annotation phase of a capture call: `none`
when no exception is raised while creating the annotation dots. -/
def captureAnnotationError (env : Env) (doc : RhinoDoc) (layerName : Option String)
    (showAnnotations : Bool) : Option String :=
  if showAnnotations then
    (annotateObjects env layerName doc.nextDotId doc.objects 0).2.2
  else none

/-! ## Command dispatch: `execute_command` and the connection loop -/

/-- The decoded `params` mapping, restricted to the parameter shapes the
embedded handlers read (a handler `get`s what it needs; anything absent
falls back to the Python defaults). -/
inductive CmdParams where
  | emptyP
  | listObjectsP (filters : FilterSpec) (metadataFields : Option (List String))
  | execCodeP (code : List Stmt)
  | addMetaP (objectId : Option String) (name : Option String) (description : Option String)
  | captureP (layer : Option String) (showAnnotations : Bool) (maxSize : Int)
deriving DecidableEq

/-- One wire command `{type, params}`. -/
structure Command where
  type : String
  params : CmdParams
deriving DecidableEq

/-- `params.get("code", "")`. -/
def paramsCode : CmdParams → List Stmt
  | CmdParams.execCodeP c => c
  | _ => []

/-- `params.get("filters", {})`. -/
def paramsFilters : CmdParams → FilterSpec
  | CmdParams.listObjectsP f _ => f
  | _ => { layer := none, name := none, short_id := none }

/-- `params.get("metadata_fields")`. -/
def paramsMetadataFields : CmdParams → Option (List String)
  | CmdParams.listObjectsP _ m => m
  | _ => none

/-- `params.get("layer")`. -/
def paramsLayer : CmdParams → Option String
  | CmdParams.captureP l _ _ => l
  | _ => none

/-- `params.get("show_annotations", True)`. -/
def paramsShowAnnotations : CmdParams → Bool
  | CmdParams.captureP _ b _ => b
  | _ => true

/-- `params.get("max_size", 800)`. -/
def paramsMaxSize : CmdParams → Int
  | CmdParams.captureP _ _ m => m
  | _ => 800

/-- `params.get("object_id")`. -/
def paramsObjectId : CmdParams → Option String
  | CmdParams.addMetaP oid _ _ => oid
  | _ => none

/-- `params.get("name")`. -/
def paramsName : CmdParams → Option String
  | CmdParams.addMetaP _ n _ => n
  | _ => none

/-- `params.get("description")`. -/
def paramsDescription : CmdParams → Option String
  | CmdParams.addMetaP _ _ d => d
  | _ => none

/-- The `add_rhino_object_metadata` dispatch branch: a missing `object_id`
makes the first `rs` call raise, which the handler converts to an error
response. -/
def add_rhino_object_metadata_cmd (env : Env) (doc : RhinoDoc)
    (objectId name? desc? : Option String) : RhinoDoc × Response :=
  match objectId with
  | none => (doc, Response.error "Could not convert None into Guid")
  | some oid => add_rhino_object_metadata doc oid name? desc? env.nowShortId env.nowTime

/-- The `if/elif` dispatch chain of `execute_command`, in source order; a
type string matching no branch yields the unknown-command error. -/
def execute_command (env : Env) (doc : RhinoDoc) (cmd : Command) : RhinoDoc × Response :=
  if cmd.type = "get_rhino_scene_info" then (doc, env.sceneInfo doc)
  else if cmd.type = "_rhino_create_cube" then env.createCube doc
  else if cmd.type = "get_rhino_layers" then (doc, get_rhino_layers doc)
  else if cmd.type = "execute_code" then (doc, execute_rhino_code (paramsCode cmd.params))
  else if cmd.type = "get_rhino_objects_with_metadata" then
    (doc, get_rhino_objects_with_metadata doc (paramsFilters cmd.params)
            (paramsMetadataFields cmd.params))
  else if cmd.type = "capture_rhino_viewport" then
    capture_rhino_viewport env doc (paramsLayer cmd.params)
      (paramsShowAnnotations cmd.params) (paramsMaxSize cmd.params)
  else if cmd.type = "add_rhino_object_metadata" then
    add_rhino_object_metadata_cmd env doc (paramsObjectId cmd.params)
      (paramsName cmd.params) (paramsDescription cmd.params)
  else if cmd.type = "get_rhino_selected_objects" then (doc, env.selectedObjects doc)
  else if cmd.type = "grasshopper_add_components" then (doc, env.ghAddComponents)
  else if cmd.type = "grasshopper_get_definition_info" then (doc, env.ghDefinitionInfo)
  else if cmd.type = "grasshopper_run_solver" then (doc, env.ghRunSolver)
  else if cmd.type = "grasshopper_clear_canvas" then (doc, env.ghClearCanvas)
  else if cmd.type = "grasshopper_list_available_components" then (doc, env.ghListComponents)
  else (doc, Response.error "Unknown command type")

/-- The type strings of the dispatch table's branches. -/
def knownCommandTypes : List String :=
  ["get_rhino_scene_info", "_rhino_create_cube", "get_rhino_layers", "execute_code",
   "get_rhino_objects_with_metadata", "capture_rhino_viewport",
   "add_rhino_object_metadata", "get_rhino_selected_objects",
   "grasshopper_add_components", "grasshopper_get_definition_info",
   "grasshopper_run_solver", "grasshopper_clear_canvas",
   "grasshopper_list_available_components"]

/-- One inbound unit on a connection: a decodable command, or bytes that
fail `json.loads`. -/
inductive Msg where
  | cmd (c : Command)
  | garbage
deriving DecidableEq

/-- The receive loop of `_handle_client`, with sends modelled as
succeeding: undecodable input is answered with the invalid-JSON error and
the loop continues; each decoded command is executed against the current
document and answered; the peer closing ends the list. -/
def processMessages (env : Env) : RhinoDoc → List Msg → List Response
  | _, [] => []
  | doc, Msg.garbage :: rest =>
    Response.error "Invalid JSON format" :: processMessages env doc rest
  | doc, Msg.cmd c :: rest =>
    let r := execute_command env doc c
    r.2 :: processMessages env r.1 rest

/-! ## The agent-facing tool layer (`rhino_mcp/rhino_tools.py`)

`RhinoConnection.send_command` raises on every failure — connect failure,
socket timeout, decode failure, connection close, and any response whose
`status` is `"error"` (it raises with that response's message).  Each tool
receives that outcome as an `Except`: `Except.error e` is a raised
exception with message `e`, `Except.ok r` a decoded non-error response. -/

/-- What a tool invocation produces for the agent: a returned string, a
returned image, or a propagated exception. -/
inductive ToolResult where
  | text (s : String)
  | image (format : String) (data : String)
  | raised (message : String)
deriving DecidableEq

/-- Quote a string (JSON rendering helper). -/
def quoteStr (s : String) : String := "\"" ++ s ++ "\""

/-- Render a stored metadata value. -/
def dumpsStored : StoredVal → String
  | StoredVal.s v => quoteStr v
  | StoredVal.num n => intStr n
  | StoredVal.pts l => encodeBBox l

/-- Render a key/value list. -/
def dumpsPairs (l : List (String × StoredVal)) : String :=
  "\x7b" ++ joinComma (l.map (fun kv => quoteStr kv.1 ++ ": " ++ dumpsStored kv.2)) ++ "\x7d"

/-- Render one object entry. -/
def dumpsObjData (o : ObjData) : String :=
  "\x7b" ++ joinComma
    ([quoteStr "id" ++ ": " ++ quoteStr o.id,
      quoteStr "name" ++ ": " ++ quoteStr o.name,
      quoteStr "type" ++ ": " ++ quoteStr o.type,
      quoteStr "layer" ++ ": " ++ quoteStr o.layer] ++
     (match o.userText with
      | some ut => [quoteStr "user_text" ++ ": " ++ dumpsPairs ut]
      | none => []) ++
     (match o.metadata with
      | some m => [quoteStr "metadata" ++ ": " ++ dumpsPairs m]
      | none => [])) ++ "\x7d"

/-- Render a layer entry. -/
def dumpsLayerEntry (l : LayerEntry) : String :=
  "\x7b" ++ joinComma
    [quoteStr "id" ++ ": " ++ intStr l.id,
     quoteStr "name" ++ ": " ++ quoteStr l.name,
     quoteStr "object_count" ++ ": " ++ intStr l.objectCount,
     quoteStr "is_visible" ++ ": " ++ (if l.isVisible then "true" else "false"),
     quoteStr "is_locked" ++ ": " ++ (if l.isLocked then "true" else "false")] ++ "\x7d"

/-- `json.dumps(result, indent=2)` on a decoded response, up to whitespace
layout: a plain serialisation of the response dictionary. -/
def dumpsResponse : Response → String
  | Response.success => "\x7b\"status\": \"success\"\x7d"
  | Response.error m =>
    "\x7b\"status\": \"error\", \"message\": " ++ quoteStr m ++ "\x7d"
  | Response.errorFields m af =>
    "\x7b\"status\": \"error\", \"message\": " ++ quoteStr m ++
      ", \"available_fields\": [" ++ joinComma (af.map quoteStr) ++ "]\x7d"
  | Response.listObjects n objs af =>
    "\x7b\"status\": \"success\", \"count\": " ++ intStr (n : Int) ++
      ", \"objects\": [" ++ joinComma (objs.map dumpsObjData) ++
      "], \"available_fields\": [" ++ joinComma (af.map quoteStr) ++ "]\x7d"
  | Response.layers ls =>
    "\x7b\"status\": \"success\", \"layers\": [" ++
      joinComma (ls.map dumpsLayerEntry) ++ "]\x7d"
  | Response.execOk r out =>
    "\x7b\"status\": \"success\", \"result\": " ++ quoteStr r ++
      ", \"printed_output\": [" ++ joinComma (out.map quoteStr) ++ "]\x7d"
  | Response.execErr m out =>
    "\x7b\"status\": \"error\", \"message\": " ++ quoteStr m ++
      ", \"printed_output\": [" ++ joinComma (out.map quoteStr) ++ "]\x7d"
  | Response.imageResp mt d =>
    "\x7b\"type\": \"image\", \"source\": \x7b\"type\": \"base64\", \"media_type\": " ++
      quoteStr mt ++ ", \"data\": " ++ quoteStr d ++ "\x7d\x7d"
  | Response.captureErr t =>
    "\x7b\"type\": \"text\", \"text\": " ++ quoteStr t ++ "\x7d"
  | Response.extResp tag => "\x7b\"status\": \"success\", \"tag\": " ++ quoteStr tag ++ "\x7d"

/-- The `get_rhino_scene_info` tool: dumps the response, or catches any
exception into an error string. -/
def get_rhino_scene_info_tool : Except String Response → ToolResult
  | Except.ok r => ToolResult.text (dumpsResponse r)
  | Except.error e => ToolResult.text ("Error getting scene info: " ++ e)

/-- The `get_rhino_layers` tool. -/
def get_rhino_layers_tool : Except String Response → ToolResult
  | Except.ok r => ToolResult.text (dumpsResponse r)
  | Except.error e => ToolResult.text ("Error getting layers: " ++ e)

/-- The `get_rhino_objects_with_metadata` tool. -/
def get_rhino_objects_with_metadata_tool : Except String Response → ToolResult
  | Except.ok r => ToolResult.text (dumpsResponse r)
  | Except.error e => ToolResult.text ("Error getting objects with metadata: " ++ e)

/-- The `get_rhino_selected_objects` tool. -/
def get_rhino_selected_objects_tool : Except String Response → ToolResult
  | Except.ok r => ToolResult.text (dumpsResponse r)
  | Except.error e => ToolResult.text ("Error getting selected objects: " ++ e)

/-- The success-path formatting of the `execute_rhino_code` tool
(`result.get(...)` with defaults, then the printed output appended). -/
def execCodeText : Response → String
  | Response.execErr m out =>
    "Error: " ++ m ++
      (if out.isEmpty then "" else "\n\nPrinted output before error:\n" ++ joinNL out)
  | Response.execOk res out =>
    res ++ (if out.isEmpty then "" else "\n\nPrinted output:\n" ++ joinNL out)
  | _ => "Code executed successfully"

/-- The `execute_rhino_code` tool. -/
def execute_rhino_code_tool : Except String Response → ToolResult
  | Except.ok r => ToolResult.text (execCodeText r)
  | Except.error e => ToolResult.text ("Error executing code: " ++ e)

/-- The raise message for a non-image capture response
(`result.get("text", "Failed to capture viewport")`). -/
def captureFailText : Response → String
  | Response.captureErr t => t
  | _ => "Failed to capture viewport"

/-- The `capture_rhino_viewport` tool: an image response is converted to
PNG (`pngConvert` models the external PIL conversion) and returned; any
exception — including a raised transport failure and the locally raised
non-image case — is logged and RE-RAISED (`except ...: logger.error(...);
raise`), not converted to a string. -/
def capture_rhino_viewport_tool (pngConvert : String → String) :
    Except String Response → ToolResult
  | Except.error e => ToolResult.raised e
  | Except.ok (Response.imageResp _ data) => ToolResult.image "png" (pngConvert data)
  | Except.ok r => ToolResult.raised (captureFailText r)

/-- Whether a tool invocation returned a value (string or image) rather
than propagating an exception. -/
def toolReturnsValue : ToolResult → Bool
  | ToolResult.raised _ => false
  | _ => true

/-! ## Small predicates used by the proofs -/

/-- The next character, if any, is not a digit (so a digit run ends here). -/
def headIsNotDigit : List Char → Bool
  | [] => true
  | c :: _ => !c.isDigit

/-- The next character, if any, is not a blank. -/
def headIsNotSpace : List Char → Bool
  | [] => true
  | c :: _ => !(c == ' ')

/-- The empty filter specification. -/
def noFilter : FilterSpec := { layer := none, name := none, short_id := none }

/-! ## Concrete fixtures used by witnesses and counterexamples -/

/-- A well-formed box object. -/
def sampleBox : RhinoObject :=
  { id := "o1", name := some "Box A", geometry := some "Box", layer := "Default",
    userText := [("note", "keep")],
    bboxCorners := some [⟨0, 0, 0⟩, ⟨1, 0, 0⟩, ⟨1, 1, 0⟩, ⟨0, 1, 0⟩,
                         ⟨0, 0, 1⟩, ⟨1, 0, 1⟩, ⟨1, 1, 1⟩, ⟨0, 1, 1⟩] }

/-- An object whose `Geometry` is null. -/
def sampleNoGeom : RhinoObject :=
  { id := "o2", name := none, geometry := none, layer := "Default",
    userText := [], bboxCorners := none }

/-- An object named `X` (used against the empty-string name filter). -/
def sampleNamedX : RhinoObject :=
  { id := "o3", name := some "X", geometry := some "Box", layer := "Default",
    userText := [], bboxCorners := none }

/-- A one-object document. -/
def sampleDoc : RhinoDoc :=
  { objects := [sampleBox], layers := [], currentLayer := "Default",
    dots := [], nextDotId := 0 }

/-- A document containing only a geometry-less object. -/
def docNoGeom : RhinoDoc :=
  { objects := [sampleNoGeom], layers := [], currentLayer := "Default",
    dots := [], nextDotId := 0 }

/-- A document with one well-formed object followed by a geometry-less one. -/
def docGoodBad : RhinoDoc :=
  { objects := [sampleBox, sampleNoGeom], layers := [], currentLayer := "Default",
    dots := [], nextDotId := 0 }

/-- A document with two annotatable objects (for the capture counterexample). -/
def docTwoBoxes : RhinoDoc :=
  { objects := [sampleBox, { sampleBox with id := "o9", name := some "B" }],
    layers := [], currentLayer := "Default", dots := [], nextDotId := 0 }

/-- An already-tagged object with a caller-assigned name. -/
def taggedObj : RhinoObject :=
  { id := "o5", name := some "My Cube", geometry := some "Box", layer := "Default",
    userText := [("name", "My Cube"), ("note", "keep"), ("short_id", "11111111")],
    bboxCorners := some [⟨0, 0, 0⟩, ⟨2, 2, 2⟩] }

/-- A document holding the tagged object. -/
def taggedDoc : RhinoDoc :=
  { objects := [taggedObj], layers := [], currentLayer := "Default",
    dots := [], nextDotId := 0 }

/-- A concrete environment with benign host behaviour. -/
def plainEnv : Env :=
  { sceneInfo := fun _ => Response.extResp "scene_info",
    createCube := fun d => (d, Response.extResp "create_cube"),
    selectedObjects := fun _ => Response.extResp "selected_objects",
    ghAddComponents := Response.extResp "grasshopper",
    ghDefinitionInfo := Response.extResp "grasshopper",
    ghRunSolver := Response.extResp "grasshopper",
    ghClearCanvas := Response.extResp "grasshopper",
    ghListComponents := Response.extResp "grasshopper",
    nowShortId := "01020304", nowTime := 1712,
    addDotOk := fun _ => true, bitmap := some (400, 200),
    encodeImage := fun _ _ => "IMG" }

/-- An environment in which the second `rs.AddTextDot` call fails. -/
def failSecondDotEnv : Env := { plainEnv with addDotOk := fun n => n == 0 }

/-! # Proofs

## Decimal strings round-trip -/

theorem isDigit_digitChar {d : Nat} (h : d < 10) : (digitChar d).isDigit = true := by
  interval_cases d <;> decide

theorem digitVal_digitChar {d : Nat} (h : d < 10) : digitVal (digitChar d) = d := by
  interval_cases d <;> decide

theorem natDigitsAux_eq (f : Nat) : ∀ n acc, n < f →
    natDigitsAux f n acc = natDigits n ++ acc := by
  induction f using Nat.strong_induction_on with
  | _ f ih =>
    intro n acc h
    cases f with
    | zero => omega
    | succ g =>
      by_cases h10 : n < 10
      · simp [natDigitsAux, h10, natDigits]
      · have hdiv : n / 10 < n := Nat.div_lt_self (by omega) (by omega)
        have lhs : natDigitsAux (g + 1) n acc
            = natDigits (n / 10) ++ (digitChar (n % 10) :: acc) := by
          rw [natDigitsAux, if_neg h10]
          exact ih g (by omega) (n / 10) _ (by omega)
        have rhs : natDigits n = natDigits (n / 10) ++ [digitChar (n % 10)] := by
          rw [natDigits, natDigitsAux, if_neg h10]
          exact ih n (by omega) (n / 10) _ hdiv
        rw [lhs, rhs]
        simp

theorem natDigits_lt {n : Nat} (h : n < 10) : natDigits n = [digitChar n] := by
  simp [natDigits, natDigitsAux, h]

theorem natDigits_ge {n : Nat} (h : 10 ≤ n) :
    natDigits n = natDigits (n / 10) ++ [digitChar (n % 10)] := by
  rw [natDigits, natDigitsAux, if_neg (by omega)]
  exact natDigitsAux_eq n (n / 10) _ (Nat.div_lt_self (by omega) (by omega))

theorem natDigits_all_digit (n : Nat) : ∀ c ∈ natDigits n, c.isDigit = true := by
  induction n using Nat.strong_induction_on with
  | _ n ih =>
    by_cases h : n < 10
    · rw [natDigits_lt h]
      intro c hc
      rw [List.mem_singleton] at hc
      subst hc
      exact isDigit_digitChar h
    · rw [natDigits_ge (by omega)]
      intro c hc
      rw [List.mem_append] at hc
      rcases hc with hc | hc
      · exact ih (n / 10) (Nat.div_lt_self (by omega) (by omega)) c hc
      · rw [List.mem_singleton] at hc
        subst hc
        exact isDigit_digitChar (Nat.mod_lt _ (by omega))

theorem natDigits_ne_nil (n : Nat) : natDigits n ≠ [] := by
  by_cases h : n < 10
  · rw [natDigits_lt h]; simp
  · rw [natDigits_ge (by omega)]; simp

theorem digitsToNat_append_one (l : List Char) (c : Char) :
    digitsToNat (l ++ [c]) = 10 * digitsToNat l + digitVal c := by
  simp [digitsToNat, List.foldl_append]

theorem digitsToNat_natDigits (n : Nat) : digitsToNat (natDigits n) = n := by
  induction n using Nat.strong_induction_on with
  | _ n ih =>
    by_cases h : n < 10
    · rw [natDigits_lt h]
      simp [digitsToNat, digitVal_digitChar h]
    · rw [natDigits_ge (by omega), digitsToNat_append_one,
        ih (n / 10) (Nat.div_lt_self (by omega) (by omega)),
        digitVal_digitChar (Nat.mod_lt _ (by omega))]
      omega

theorem isDigit_ne {c d : Char} (h : c.isDigit = true) (hd : d.isDigit = false) :
    ¬ c = d := by
  intro he
  rw [he, hd] at h
  exact Bool.false_ne_true h

theorem parseDigitsAux_spec : ∀ (ds r : List Char) (acc : Nat),
    (∀ c ∈ ds, c.isDigit = true) → headIsNotDigit r = true →
    parseDigitsAux (ds ++ r) acc =
      (ds.foldl (fun a c => 10 * a + digitVal c) acc, r) := by
  intro ds
  induction ds with
  | nil =>
    intro r acc _ hr
    cases r with
    | nil => simp [parseDigitsAux]
    | cons c cs =>
      have hc : c.isDigit = false := by
        simpa [headIsNotDigit] using hr
      simp [parseDigitsAux, hc]
  | cons c cs ih =>
    intro r acc hds hr
    have hc : c.isDigit = true := hds c (by simp)
    simp only [List.cons_append, parseDigitsAux, hc, if_pos, List.foldl_cons]
    exact ih r _ (fun x hx => hds x (by simp [hx])) hr

theorem foldl_digits_eq (c : Char) (cs : List Char) :
    cs.foldl (fun a c => 10 * a + digitVal c) (digitVal c) = digitsToNat (c :: cs) := by
  simp [digitsToNat]

theorem parseInt_enc (n : Int) (r : List Char) (hr : headIsNotDigit r = true) :
    parseInt (encInt n ++ r) = some (n, r) := by
  obtain ⟨c, cs, hds⟩ : ∃ c cs, natDigits n.natAbs = c :: cs := by
    cases h : natDigits n.natAbs with
    | nil => exact absurd h (natDigits_ne_nil _)
    | cons c cs => exact ⟨c, cs, rfl⟩
  have hall := natDigits_all_digit n.natAbs
  rw [hds] at hall
  have hc : c.isDigit = true := hall c (by simp)
  have hfold : parseDigitsAux (cs ++ r) (digitVal c) = (n.natAbs, r) := by
    rw [parseDigitsAux_spec cs r _ (fun x hx => hall x (by simp [hx])) hr,
      foldl_digits_eq, ← hds, digitsToNat_natDigits]
  by_cases hn : n < 0
  · rw [encInt, if_pos hn, hds]
    simp only [List.cons_append, parseInt, if_pos, hc, hfold]
    simp
    rw [abs_of_neg hn, neg_neg]
  · have hcm : ¬ c = '-' := isDigit_ne hc (by decide)
    rw [encInt, if_neg hn, hds]
    simp only [List.cons_append, parseInt, if_neg hcm, hc, hfold]
    simp
    omega

theorem encInt_head (n : Int) :
    ∃ c cs, encInt n = c :: cs ∧ (c = '-' ∨ c.isDigit = true) := by
  obtain ⟨c, cs, hds⟩ : ∃ c cs, natDigits n.natAbs = c :: cs := by
    cases h : natDigits n.natAbs with
    | nil => exact absurd h (natDigits_ne_nil _)
    | cons c cs => exact ⟨c, cs, rfl⟩
  have hc : c.isDigit = true := by
    have := natDigits_all_digit n.natAbs
    rw [hds] at this
    exact this c (by simp)
  by_cases hn : n < 0
  · exact ⟨'-', natDigits n.natAbs, by rw [encInt, if_pos hn], Or.inl rfl⟩
  · exact ⟨c, cs, by rw [encInt, if_neg hn, hds], Or.inr hc⟩

theorem skipSpaces_eq_self {s : List Char} (h : headIsNotSpace s = true) :
    skipSpaces s = s := by
  cases s with
  | nil => rfl
  | cons c cs =>
    have hc : ¬ c = ' ' := by
      intro he
      rw [he] at h
      simp [headIsNotSpace] at h
    simp [skipSpaces, hc]

theorem headIsNotSpace_enc (n : Int) (r : List Char) :
    headIsNotSpace (encInt n ++ r) = true := by
  obtain ⟨c, cs, heq, hc⟩ := encInt_head n
  rw [heq]
  rcases hc with hc | hc
  · subst hc; rfl
  · simp only [List.cons_append, headIsNotSpace]
    simp
    exact isDigit_ne hc (by decide)

theorem encInt_ne_nil (n : Int) : encInt n ≠ [] := by
  obtain ⟨c, cs, heq, _⟩ := encInt_head n
  rw [heq]
  simp

theorem flatten_sep_length {α : Type} (f : α → List Char) :
    ∀ l : List α, l.length ≤ ((l.map (fun e => ',' :: ' ' :: f e)).flatten).length := by
  intro l
  induction l with
  | nil => simp
  | cons x xs ih =>
    simp only [List.map_cons, List.flatten_cons, List.length_append, List.length_cons]
    omega

theorem headIsNotDigit_sep {α : Type} (f : α → List Char) (l : List α) (r : List Char) :
    headIsNotDigit ((l.map (fun e => ',' :: ' ' :: f e)).flatten ++ ']' :: r) = true := by
  cases l with
  | nil => rfl
  | cons x xs => rfl

theorem parseIntsAfter_enc : ∀ (ns : List Int) (r : List Char) (fuel : Nat),
    ns.length ≤ fuel →
    parseIntsAfter fuel ((ns.map (fun e => ',' :: ' ' :: encInt e)).flatten ++ ']' :: r) =
      some (ns, r) := by
  intro ns
  induction ns with
  | nil =>
    intro r fuel _
    rw [parseIntsAfter]
    simp [skipSpaces]
  | cons n ns ih =>
    intro r fuel hf
    cases fuel with
    | zero => simp at hf
    | succ f =>
      rw [parseIntsAfter]
      simp only [List.map_cons, List.flatten_cons, List.cons_append, List.append_assoc]
      rw [skipSpaces_eq_self (by rfl)]
      simp only [reduceIte]
      have hskip : skipSpaces (' ' :: (encInt n ++
          ((ns.map (fun e => ',' :: ' ' :: encInt e)).flatten ++ ']' :: r))) =
          encInt n ++ ((ns.map (fun e => ',' :: ' ' :: encInt e)).flatten ++ ']' :: r) := by
        have : skipSpaces (' ' :: (encInt n ++
            ((ns.map (fun e => ',' :: ' ' :: encInt e)).flatten ++ ']' :: r))) =
            skipSpaces (encInt n ++
              ((ns.map (fun e => ',' :: ' ' :: encInt e)).flatten ++ ']' :: r)) := by
          simp [skipSpaces]
        rw [this, skipSpaces_eq_self (headIsNotSpace_enc n _)]
      rw [hskip, parseInt_enc n _ (headIsNotDigit_sep encInt ns r)]
      simp [ih r f (by simp at hf; omega)]

theorem parsePointAt_enc (p : List Int) (r : List Char) :
    parsePointAt (encPoint p ++ r) = some (p, r) := by
  cases p with
  | nil =>
    rw [parsePointAt]
    simp [encPoint, commaJoin, skipSpaces]
  | cons n ns =>
    obtain ⟨c₁, cs₁, henc, hd⟩ := encInt_head n
    have hne : ¬ c₁ = ']' := by
      rcases hd with hd | hd
      · subst hd; decide
      · exact isDigit_ne hd (by decide)
    have e1 : encPoint (n :: ns) ++ r =
        '[' :: (encInt n ++
          ((ns.map (fun e => ',' :: ' ' :: encInt e)).flatten ++ ']' :: r)) := by
      simp [encPoint, commaJoin]
      rfl
    rw [parsePointAt, e1, skipSpaces_eq_self (by rfl)]
    simp only [reduceIte]
    rw [skipSpaces_eq_self (headIsNotSpace_enc n _)]
    rw [henc]
    simp only [List.cons_append, reduceIte, if_neg hne]
    rw [← List.cons_append, ← henc,
      parseInt_enc n _ (headIsNotDigit_sep encInt ns r)]
    have hlen : ns.length ≤
        ((ns.map (fun e => ',' :: ' ' :: encInt e)).flatten ++ ']' :: r).length := by
      have := flatten_sep_length encInt ns
      simp only [List.length_append, List.length_cons]
      omega
    dsimp only
    rw [parseIntsAfter_enc ns r _ hlen]

theorem parsePointAt_skip (s : List Char) : parsePointAt (' ' :: s) = parsePointAt s := by
  simp only [parsePointAt]
  have : skipSpaces (' ' :: s) = skipSpaces s := by simp [skipSpaces]
  rw [this]

theorem encPoint_head (p : List Int) (r : List Char) :
    encPoint p ++ r = '[' :: (commaJoin (p.map encInt) ++ ']' :: r) := by
  simp [encPoint]

theorem parsePointsAfter_enc : ∀ (ps : List (List Int)) (r : List Char) (fuel : Nat),
    ps.length ≤ fuel →
    parsePointsAfter fuel
        ((ps.map (fun e => ',' :: ' ' :: encPoint e)).flatten ++ ']' :: r) =
      some (ps, r) := by
  intro ps
  induction ps with
  | nil =>
    intro r fuel _
    rw [parsePointsAfter]
    simp [skipSpaces]
  | cons p ps ih =>
    intro r fuel hf
    cases fuel with
    | zero => simp at hf
    | succ f =>
      rw [parsePointsAfter]
      simp only [List.map_cons, List.flatten_cons, List.cons_append, List.append_assoc]
      rw [skipSpaces_eq_self (by rfl)]
      simp only [reduceIte]
      rw [parsePointAt_skip, parsePointAt_enc p _]
      simp [ih r f (by simp at hf; omega)]

theorem parseBBox_encodeBBox (l : List (List Int)) : parseBBox (encodeBBox l) = some l := by
  have hdata : (encodeBBox l).data = encBBoxChars l := rfl
  rw [parseBBox, hdata]
  cases l with
  | nil =>
    rw [parseBBoxChars]
    simp [encBBoxChars, commaJoin, skipSpaces]
  | cons p ps =>
    have e1 : encBBoxChars (p :: ps) =
        '[' :: (encPoint p ++
          ((ps.map (fun e => ',' :: ' ' :: encPoint e)).flatten ++ ']' :: [])) := by
      simp [encBBoxChars, commaJoin]
      rfl
    rw [parseBBoxChars, e1, skipSpaces_eq_self (by rfl)]
    simp only [reduceIte]
    rw [encPoint_head]
    rw [skipSpaces_eq_self (by rfl)]
    simp only [reduceIte]
    rw [← encPoint_head, parsePointAt_enc p _]
    have hlen : ps.length ≤
        ((ps.map (fun e => ',' :: ' ' :: encPoint e)).flatten ++ ']' :: []).length := by
      have := flatten_sep_length encPoint ps
      simp only [List.length_append, List.length_cons]
      omega
    dsimp only
    rw [parsePointsAfter_enc ps [] _ hlen]
    simp [skipSpaces]

/-! ## The wildcard matcher versus the specification's wording -/

theorem compilePattern_length (p : List Char) :
    (compilePattern p).length = p.length := by
  induction p with
  | nil => rfl
  | cons c cs ih => simp [compilePattern, ih]

theorem tokMatchF_spec_eq : ∀ (fuel : Nat) (p s : List Char),
    p.length + s.length < fuel →
    (∀ c ∈ p, ¬ c ∈ regexSpecials) → (¬ '\n' ∈ s) →
    tokMatchF fuel (compilePattern p) s = specMatchF fuel p s := by
  intro fuel
  induction fuel with
  | zero =>
    intro p s h _ _
    omega
  | succ f ih =>
    intro p s hlen hp hs
    cases p with
    | nil =>
      cases s with
      | nil => rfl
      | cons d s' =>
        have hd : ¬ d = '\n' := by
          intro he
          exact hs (by rw [he]; exact List.mem_cons_self _ _)
        simp [compilePattern, tokMatchF, specMatchF, reEndOk, hd]
    | cons c ps =>
      have hps : ∀ x ∈ ps, ¬ x ∈ regexSpecials := fun x hx => hp x (by simp [hx])
      by_cases hc : c = '*'
      · subst hc
        cases s with
        | nil =>
          simp only [compilePattern, reduceIte, tokMatchF, specMatchF]
          rw [ih ps [] (by simp at hlen ⊢; omega) hps (by simp)]
        | cons d s' =>
          have hd : ¬ d = '\n' := by
            intro he
            exact hs (by rw [he]; exact List.mem_cons_self _ _)
          have hs' : ¬ '\n' ∈ s' := fun hx => hs (List.mem_cons_of_mem _ hx)
          simp only [compilePattern, reduceIte, tokMatchF, specMatchF, hd,
            ne_eq, not_false_eq_true]
          rw [ih ps (d :: s') (by simp at hlen ⊢; omega) hps hs]
          have hcp : RTok.star :: compilePattern ps = compilePattern ('*' :: ps) := by
            simp [compilePattern]
          rw [hcp, ih ('*' :: ps) s' (by simp at hlen ⊢; omega) hp hs']
          simp
      · have hdot : ¬ c = '.' := by
          intro he
          exact hp c (List.mem_cons_self _ _) (by rw [he]; decide)
        cases s with
        | nil => simp [compilePattern, hc, hdot, tokMatchF, specMatchF]
        | cons d s' =>
          have hs' : ¬ '\n' ∈ s' := fun hx => hs (List.mem_cons_of_mem _ hx)
          simp only [compilePattern, tokMatchF, specMatchF, if_neg hc, if_neg hdot]
          rw [ih ps s' (by simp at hlen ⊢; omega) hps hs']

theorem codeFilterMatch_eq_spec (f s : String)
    (hp : ∀ c ∈ f.data, ¬ c ∈ regexSpecials) (hs : ¬ '\n' ∈ s.data) :
    codeFilterMatch f s = specWildcardMatch f s := by
  rw [codeFilterMatch, tokMatch, specWildcardMatch, compilePattern_length]
  exact tokMatchF_spec_eq _ f.data s.data (by omega) hp hs

/-! ## Attribute store lemmas -/

theorem alookup_setUserText_same (s : List (String × String)) (k v : String) :
    alookup (setUserText s k v) k = some v := by
  induction s with
  | nil => simp [setUserText, alookup]
  | cons kv rest ih =>
    obtain ⟨k₀, v₀⟩ := kv
    by_cases h : k₀ = k
    · simp [setUserText, h, alookup]
    · simp [setUserText, h, alookup, ih]

theorem alookup_setUserText_other (s : List (String × String)) (k v k' : String)
    (h : ¬ k = k') :
    alookup (setUserText s k v) k' = alookup s k' := by
  induction s with
  | nil => simp [setUserText, alookup, h]
  | cons kv rest ih =>
    obtain ⟨k₀, v₀⟩ := kv
    by_cases h0 : k₀ = k
    · subst h0
      simp [setUserText, alookup, h]
    · simp only [setUserText, if_neg h0, alookup]
      by_cases h1 : k₀ = k'
      · simp [h1]
      · simp [h1, ih]

theorem writeAll_cons (s : List (String × String)) (e : String × String)
    (es : List (String × String)) :
    writeAll s (e :: es) = writeAll (setUserText s e.1 e.2) es := rfl

theorem alookup_writeAll_not_mem (es : List (String × String)) :
    ∀ (s : List (String × String)) (k : String), (¬ k ∈ es.map Prod.fst) →
    alookup (writeAll s es) k = alookup s k := by
  induction es with
  | nil => intro s k _; rfl
  | cons e es ih =>
    intro s k hk
    rw [writeAll_cons, ih _ _ (fun hx => hk (by simp [hx]))]
    exact alookup_setUserText_other _ _ _ _ (fun he => hk (by simp [← he]))

theorem alookup_setUserText_isSome (s : List (String × String)) (k v k' : String)
    (h : (alookup s k').isSome = true) :
    (alookup (setUserText s k v) k').isSome = true := by
  by_cases he : k = k'
  · subst he
    rw [alookup_setUserText_same]
    rfl
  · rw [alookup_setUserText_other _ _ _ _ he]
    exact h

theorem alookup_writeAll_isSome (es : List (String × String)) :
    ∀ (s : List (String × String)) (k : String), (alookup s k).isSome = true →
    (alookup (writeAll s es) k).isSome = true := by
  induction es with
  | nil => intro s k h; exact h
  | cons e es ih =>
    intro s k h
    rw [writeAll_cons]
    exact ih _ _ (alookup_setUserText_isSome _ _ _ _ h)

theorem coerceStored_fst (kv : String × String) : (coerceStored kv).1 = kv.1 := by
  obtain ⟨k, v⟩ := kv
  by_cases h1 : k = "bbox"
  · simp [coerceStored, h1]
  · by_cases h2 : k = "created_at" <;> simp [coerceStored, h1, h2]

theorem alookup_map_coerce (l : List (String × String)) (k : String) :
    alookup (l.map coerceStored) k =
      (alookup l k).map (fun v => (coerceStored (k, v)).2) := by
  induction l with
  | nil => rfl
  | cons kv rest ih =>
    obtain ⟨k₀, v₀⟩ := kv
    have hc : coerceStored (k₀, v₀) = (k₀, (coerceStored (k₀, v₀)).2) :=
      Prod.ext (coerceStored_fst (k₀, v₀)) rfl
    rw [List.map_cons, hc]
    simp only [alookup]
    by_cases h : k₀ = k
    · subst h
      simp
    · simp [h, ih]

/-! ## Characterisations of the query loop -/

theorem buildObjects_ok (fs : FilterSpec) (mf : Option (List String)) :
    ∀ os : List RhinoObject,
    (∀ o ∈ os, o.geometry.isSome = true) →
    buildObjects fs mf os = Except.ok
      ((os.filter (fun o => passesFilters fs o)).filterMap
        (fun o => o.geometry.map (fun g => mkObjData o g mf))) := by
  intro os
  induction os with
  | nil => intro _; rfl
  | cons o os ih =>
    intro h
    obtain ⟨g, hg⟩ : ∃ g, o.geometry = some g :=
      Option.isSome_iff_exists.mp (h o (List.mem_cons_self _ _))
    have ih' := ih (fun x hx => h x (List.mem_cons_of_mem _ hx))
    by_cases hp : passesFilters fs o = true
    · simp [buildObjects, hp, hg, ih', List.filter_cons, List.filterMap_cons, Except.map]
    · have hp' : passesFilters fs o = false := by
        simpa using hp
      simp [buildObjects, hp', ih', List.filter_cons]

theorem buildObjects_error (fs : FilterSpec) (mf : Option (List String)) :
    ∀ os : List RhinoObject,
    (∃ o ∈ os, passesFilters fs o = true ∧ o.geometry = none) →
    buildObjects fs mf os = Except.error attrErrMsg := by
  intro os
  induction os with
  | nil => intro h; simp at h
  | cons o os ih =>
    intro h
    by_cases hp : passesFilters fs o = true
    · cases hg : o.geometry with
      | none => simp [buildObjects, hp, hg]
      | some g =>
        have hrest : ∃ x ∈ os, passesFilters fs x = true ∧ x.geometry = none := by
          rcases h with ⟨x, hx, hpx, hgx⟩
          rcases List.mem_cons.mp hx with he | hm
          · subst he
            rw [hg] at hgx
            cases hgx
          · exact ⟨x, hm, hpx, hgx⟩
        simp [buildObjects, hp, hg, ih hrest, Except.map]
    · have hrest : ∃ x ∈ os, passesFilters fs x = true ∧ x.geometry = none := by
        rcases h with ⟨x, hx, hpx, hgx⟩
        rcases List.mem_cons.mp hx with he | hm
        · subst he
          exact absurd hpx hp
        · exact ⟨x, hm, hpx, hgx⟩
      have hp' : passesFilters fs o = false := by simpa using hp
      simp [buildObjects, hp', ih hrest]

/-! ## The script runner -/

theorem optOr_optOr_some {α : Type} (a : Option α) (s : α) (r : Option α) :
    optOr (optOr a (some s)) r = optOr a (some s) := by
  cases a <;> rfl

theorem runScriptAux_spec : ∀ (k : List Stmt) (out : List String) (res : Option String),
    (runScriptAux k out res).1 = out ++ scriptPrints k ∧
    (runScriptAux k out res).2.2 = scriptError k ∧
    (scriptError k = none → (runScriptAux k out res).2.1 = optOr (scriptResult k) res) := by
  intro k
  induction k with
  | nil =>
    intro out res
    simp [runScriptAux, scriptPrints, scriptError, scriptResult, optOr]
  | cons st k ih =>
    intro out res
    cases st with
    | printLn s =>
      obtain ⟨h1, h2, h3⟩ := ih (out ++ [s]) res
      refine ⟨?_, ?_, ?_⟩
      · simp [runScriptAux, scriptPrints, h1]
      · simp [runScriptAux, scriptError, h2]
      · intro he
        have he' : scriptError k = none := by simpa [scriptError] using he
        simp [runScriptAux, scriptResult, h3 he']
    | setResult s =>
      obtain ⟨h1, h2, h3⟩ := ih out (some s)
      refine ⟨?_, ?_, ?_⟩
      · simp [runScriptAux, scriptPrints, h1]
      · simp [runScriptAux, scriptError, h2]
      · intro he
        have he' : scriptError k = none := by simpa [scriptError] using he
        simp [runScriptAux, scriptResult, h3 he', optOr_optOr_some]
    | raiseErr m =>
      refine ⟨?_, ?_, ?_⟩
      · simp [runScriptAux, scriptPrints]
      · simp [runScriptAux, scriptError]
      · intro he
        simp [scriptError] at he

/-! ## `updateFirst` and `find?` -/

theorem updateFirst_find? {α : Type} (p : α → Bool) (f : α → α)
    (hpres : ∀ a, p a = true → p (f a) = true) :
    ∀ (l : List α) (a : α), l.find? p = some a →
    (updateFirst p f l).find? p = some (f a) := by
  intro l
  induction l with
  | nil => intro a h; simp at h
  | cons x xs ih =>
    intro a h
    by_cases hx : p x = true
    · rw [List.find?_cons_of_pos _ hx] at h
      injection h with h
      subst h
      rw [updateFirst, if_pos hx, List.find?_cons_of_pos _ (hpres _ hx)]
    · have hx' : p x = false := by simpa using hx
      rw [List.find?_cons_of_neg _ hx] at h
      rw [updateFirst, if_neg (by simp [hx']), List.find?_cons_of_neg _ hx]
      exact ih a h

theorem updateFirst_mem {α : Type} (p : α → Bool) (f : α → α) :
    ∀ (l : List α) (a : α), l.find? p = some a →
    f a ∈ updateFirst p f l := by
  intro l
  induction l with
  | nil => intro a h; simp at h
  | cons x xs ih =>
    intro a h
    by_cases hx : p x = true
    · rw [List.find?_cons_of_pos _ hx] at h
      injection h with h
      subst h
      rw [updateFirst, if_pos hx]
      exact List.mem_cons_self _ _
    · rw [List.find?_cons_of_neg _ hx] at h
      rw [updateFirst, if_neg hx]
      exact List.mem_cons_of_mem _ (ih a h)

theorem updateFirst_forall {α : Type} (p : α → Bool) (f : α → α) (q : α → Prop)
    (hf : ∀ x, q x → q (f x)) :
    ∀ l : List α, (∀ x ∈ l, q x) → ∀ x ∈ updateFirst p f l, q x := by
  intro l
  induction l with
  | nil => intro _ x hx; simp [updateFirst] at hx
  | cons y ys ih =>
    intro h x hx
    rw [updateFirst] at hx
    by_cases hy : p y = true
    · rw [if_pos hy] at hx
      rcases List.mem_cons.mp hx with he | hm
      · subst he
        exact hf y (h y (List.mem_cons_self _ _))
      · exact h x (List.mem_cons_of_mem _ hm)
    · rw [if_neg hy] at hx
      rcases List.mem_cons.mp hx with he | hm
      · subst he
        exact h x (List.mem_cons_self _ _)
      · exact ih (fun z hz => h z (List.mem_cons_of_mem _ hz)) x hm

/-! ## Query response shape lemmas -/

theorem passesFilters_noFilter (o : RhinoObject) : passesFilters noFilter o = true := by
  simp [passesFilters, noFilter, strTruthy]

theorem mkObjData_id (o : RhinoObject) (g : String) (mf : Option (List String)) :
    (mkObjData o g mf).id = o.id := rfl

theorem filterMap_mk_ids (mf : Option (List String)) :
    ∀ l : List RhinoObject, (∀ o ∈ l, o.geometry.isSome = true) →
    (l.filterMap (fun o => o.geometry.map (fun g => mkObjData o g mf))).map
      (fun e => e.id) = l.map (fun o => o.id) := by
  intro l
  induction l with
  | nil => intro _; rfl
  | cons o os ih =>
    intro h
    obtain ⟨g, hg⟩ := Option.isSome_iff_exists.mp (h o (List.mem_cons_self _ _))
    have hrest := ih (fun x hx => h x (List.mem_cons_of_mem _ hx))
    simp [List.filterMap_cons, hg, hrest, mkObjData_id]

theorem get_objects_ok_eq (doc : RhinoDoc) (fs : FilterSpec)
    (mf : Option (List String)) (hval : invalidFields mf = [])
    (hgeo : ∀ o ∈ doc.objects, o.geometry.isSome = true) :
    get_rhino_objects_with_metadata doc fs mf =
      Response.listObjects
        (((doc.objects.filter (fun o => passesFilters fs o)).filterMap
          (fun o => o.geometry.map (fun g => mkObjData o g mf))).length)
        ((doc.objects.filter (fun o => passesFilters fs o)).filterMap
          (fun o => o.geometry.map (fun g => mkObjData o g mf)))
        allFields := by
  have hb := buildObjects_ok fs mf doc.objects hgeo
  simp only [get_rhino_objects_with_metadata, hval, List.isEmpty_nil, Bool.not_true,
    Bool.false_eq_true, if_false, hb]

theorem respObjIds_of_geom (doc : RhinoDoc) (fs : FilterSpec)
    (hgeo : ∀ o ∈ doc.objects, o.geometry.isSome = true) :
    isSuccessList (get_rhino_objects_with_metadata doc fs none) = true ∧
    respObjIds (get_rhino_objects_with_metadata doc fs none) =
      (doc.objects.filter (fun o => passesFilters fs o)).map (fun o => o.id) := by
  rw [get_objects_ok_eq doc fs none rfl hgeo]
  constructor
  · rfl
  · simp only [respObjIds]
    exact filterMap_mk_ids none _
      (fun o ho => hgeo o (List.mem_of_mem_filter ho))

/-! ## Claim theorems -/

/-- Claim C1: a list-objects query whose `metadata_fields` contains at least
one name outside the closed valid set is answered — for every document state
alike, so before any object is iterated and with no partial result — by an
error response listing the full set of valid field names. -/
theorem C1_invalid_fields_rejected (doc doc₂ : RhinoDoc) (fs : FilterSpec)
    (mf : List String)
    (h : (mf.filter (fun f => !(allFields.contains f))) ≠ []) :
    get_rhino_objects_with_metadata doc fs (some mf) =
      Response.errorFields
        ("Invalid metadata fields: " ++
          joinComma (mf.filter (fun f => !(allFields.contains f)))) allFields ∧
    get_rhino_objects_with_metadata doc fs (some mf) =
      get_rhino_objects_with_metadata doc₂ fs (some mf) ∧
    allFields = ["id", "name", "type", "layer", "short_id", "created_at",
      "bbox", "description", "user_text"] := by
  have hmf : ¬ mf = [] := by
    intro he
    subst he
    simp at h
  have htruthy : listTruthy (some mf) = true := by
    simp [listTruthy, hmf]
  have hinv : invalidFields (some mf) = mf.filter (fun f => !(allFields.contains f)) := by
    simp [invalidFields, htruthy]
  have hne : (invalidFields (some mf)).isEmpty = false := by
    rw [hinv]
    simpa [List.isEmpty_iff] using h
  have hne' : (mf.filter (fun f => !allFields.contains f)).isEmpty = false := by
    rw [← hinv]
    exact hne
  refine ⟨?_, ?_, rfl⟩
  · simp only [get_rhino_objects_with_metadata, hinv, hne', Bool.not_false, if_true]
  · simp only [get_rhino_objects_with_metadata, hinv, hne', Bool.not_false, if_true]

/-- Witness for C1: the field name `bogus` is rejected with the full valid
set echoed back. -/
theorem C1_witness :
    (["bogus"].filter (fun f => !(allFields.contains f))) ≠ [] ∧
    get_rhino_objects_with_metadata sampleDoc noFilter (some ["bogus"]) =
      Response.errorFields
        ("Invalid metadata fields: " ++
          joinComma (["bogus"].filter (fun f => !(allFields.contains f)))) allFields :=
  ⟨by decide,
   (C1_invalid_fields_rejected sampleDoc docNoGeom noFilter ["bogus"] (by decide)).1⟩

/-- Claim C3, counterexample: on a document whose only object has a null
geometry, the query with an empty `FilterSpec` does not return the set of
existing objects — it returns the error shape, with no objects at all. -/
theorem C3_counterexample :
    get_rhino_objects_with_metadata docNoGeom noFilter none =
      Response.errorFields attrErrMsg allFields ∧
    isSuccessList (get_rhino_objects_with_metadata docNoGeom noFilter none) = false := by
  refine ⟨by decide, by decide⟩

/-- Claim C3 (amended: for documents in which every object's metadata
assembly succeeds, i.e. every object has a geometry): the query with an
empty `FilterSpec` succeeds and returns exactly the existing objects, and
each single filter — layer, name or short_id — returns a subset of the
unfiltered result. -/
theorem C3_no_filter_exact_and_filters_subset (doc : RhinoDoc)
    (hgeo : ∀ o ∈ doc.objects, o.geometry.isSome = true) :
    (isSuccessList (get_rhino_objects_with_metadata doc noFilter none) = true ∧
     respObjIds (get_rhino_objects_with_metadata doc noFilter none) =
       doc.objects.map (fun o => o.id)) ∧
    (∀ s x, x ∈ respObjIds (get_rhino_objects_with_metadata doc
        { layer := some s, name := none, short_id := none } none) →
      x ∈ respObjIds (get_rhino_objects_with_metadata doc noFilter none)) ∧
    (∀ s x, x ∈ respObjIds (get_rhino_objects_with_metadata doc
        { layer := none, name := some s, short_id := none } none) →
      x ∈ respObjIds (get_rhino_objects_with_metadata doc noFilter none)) ∧
    (∀ s x, x ∈ respObjIds (get_rhino_objects_with_metadata doc
        { layer := none, name := none, short_id := some s } none) →
      x ∈ respObjIds (get_rhino_objects_with_metadata doc noFilter none)) := by
  obtain ⟨hs0, hids0⟩ := respObjIds_of_geom doc noFilter hgeo
  have hfull : doc.objects.filter (fun o => passesFilters noFilter o) = doc.objects := by
    apply List.filter_eq_self.mpr
    intro o _
    exact passesFilters_noFilter o
  have hsub : ∀ fs : FilterSpec, ∀ x,
      x ∈ respObjIds (get_rhino_objects_with_metadata doc fs none) →
      x ∈ respObjIds (get_rhino_objects_with_metadata doc noFilter none) := by
    intro fs x hx
    obtain ⟨_, hids⟩ := respObjIds_of_geom doc fs hgeo
    rw [hids] at hx
    rw [hids0, hfull]
    obtain ⟨o, ho, rfl⟩ := List.mem_map.mp hx
    exact List.mem_map.mpr ⟨o, List.mem_of_mem_filter ho, rfl⟩
  exact ⟨⟨hs0, by rw [hids0, hfull]⟩,
    fun s => hsub { layer := some s, name := none, short_id := none },
    fun s => hsub { layer := none, name := some s, short_id := none },
    fun s => hsub { layer := none, name := none, short_id := some s }⟩

/-- Witness for C3 at a concrete document. -/
theorem C3_witness :
    respObjIds (get_rhino_objects_with_metadata sampleDoc noFilter none) =
      sampleDoc.objects.map (fun o => o.id) :=
  (C3_no_filter_exact_and_filters_subset sampleDoc (by decide)).1.2

/-- Claim C4, counterexample: a document with one well-formed object and one
object whose metadata assembly fails is not answered with a success response
that skips the failing object — the whole query returns the error shape and
the well-formed object is discarded. -/
theorem C4_counterexample :
    get_rhino_objects_with_metadata docGoodBad noFilter none =
      Response.errorFields attrErrMsg allFields ∧
    isSuccessList (get_rhino_objects_with_metadata docGoodBad noFilter none) = false := by
  refine ⟨by decide, by decide⟩

/-- Claim C4 (amended: when any filter-passing object of the document fails
metadata assembly, the query returns the error response
`{status, message, available_fields}` — the failing object is not skipped
and no partial result is returned). -/
theorem C4_error_on_object_failure (doc : RhinoDoc) (fs : FilterSpec)
    (mf : Option (List String)) (hval : invalidFields mf = [])
    (hbad : ∃ o ∈ doc.objects, passesFilters fs o = true ∧ o.geometry = none) :
    get_rhino_objects_with_metadata doc fs mf =
      Response.errorFields attrErrMsg allFields ∧
    isSuccessList (get_rhino_objects_with_metadata doc fs mf) = false := by
  have hb := buildObjects_error fs mf doc.objects hbad
  constructor
  · simp [get_rhino_objects_with_metadata, hval, hb]
  · simp [get_rhino_objects_with_metadata, hval, hb, isSuccessList]

/-- Witness for C4 at a concrete document. -/
theorem C4_witness :
    get_rhino_objects_with_metadata docNoGeom
      { layer := some "Def*", name := none, short_id := none } none =
      Response.errorFields attrErrMsg allFields :=
  (C4_error_on_object_failure docNoGeom
    { layer := some "Def*", name := none, short_id := none } none rfl (by decide)).1

/-- Claim C2, counterexample: the claim quantifies over every filter string,
but the code compiles the filter into a regex without escaping.  The filter
`a.c` matches the name `abc` in the code (regex `.`), while the pattern the
claim describes — `*` replaced by "zero or more characters", other
characters standing for themselves — does not.  And a present-but-empty
filter string is falsy in Python, so the code skips it and the object named
`X` passes, although the claim's anchored pattern for `""` does not match
`X`. -/
theorem C2_counterexample :
    (codeFilterMatch "a.c" "abc" = true ∧ specWildcardMatch "a.c" "abc" = false) ∧
    (passesFilters { layer := none, name := some "", short_id := none } sampleNamedX
        = true ∧
      specWildcardMatch "" "X" = false) := by
  exact ⟨⟨by decide, by decide⟩, ⟨by decide, by decide⟩⟩

/-- Claim C2 (amended: for every layer/name filter string that is nonempty
and contains no regex metacharacter other than `*`, and every text without a
newline): the code's filter test equals the anchored case-insensitive
wildcard match described by the spec; `Layer*` matches `Layer1` and
`LayerABC` but not `MyLayer1`; the short_id filter is an exact string
comparison; and an object is returned only if every truthy filter matches
(AND). -/
theorem isEmpty_false_of_ne {s : String} (h : ¬ s = "") : s.isEmpty = false := by
  cases he : s.isEmpty
  · rfl
  · exact absurd ((String.isEmpty_iff s).mp he) h

theorem strTruthy_some_ne {s : String} (h : ¬ s = "") : strTruthy (some s) = true := by
  simp [strTruthy, isEmpty_false_of_ne h]

theorem C2_filter_semantics :
    (∀ f s : String, (∀ c ∈ f.data, ¬ c ∈ regexSpecials) → (¬ '\n' ∈ s.data) →
       codeFilterMatch f s = specWildcardMatch f s) ∧
    (codeFilterMatch "Layer*" "Layer1" = true ∧
     codeFilterMatch "Layer*" "LayerABC" = true ∧
     codeFilterMatch "Layer*" "MyLayer1" = false) ∧
    (∀ (fs : FilterSpec) (o : RhinoObject), passesFilters fs o = true ↔
      ((∀ fl, fs.layer = some fl → ¬ fl = "" → codeFilterMatch fl o.layer = true) ∧
       (∀ fn, fs.name = some fn → ¬ fn = "" →
          codeFilterMatch fn (o.name.getD "") = true) ∧
       (∀ fi, fs.short_id = some fi → ¬ fi = "" →
          (alookup o.userText "short_id").getD "" = fi))) := by
  refine ⟨codeFilterMatch_eq_spec, ⟨by decide, by decide, by decide⟩, ?_⟩
  intro fs o
  rw [passesFilters, Bool.and_eq_true, Bool.and_eq_true]
  constructor
  · rintro ⟨⟨h1, h2⟩, h3⟩
    refine ⟨?_, ?_, ?_⟩
    · intro fl hfl hne
      rw [hfl] at h1
      rw [if_pos (strTruthy_some_ne hne)] at h1
      simpa using h1
    · intro fn hfn hne
      rw [hfn] at h2
      rw [if_pos (strTruthy_some_ne hne)] at h2
      simpa using h2
    · intro fi hfi hne
      rw [hfi] at h3
      rw [if_pos (strTruthy_some_ne hne)] at h3
      simpa using h3
  · rintro ⟨h1, h2, h3⟩
    refine ⟨⟨?_, ?_⟩, ?_⟩
    · cases hl : fs.layer with
      | none => simp [strTruthy]
      | some fl =>
        by_cases hne : fl = ""
        · rw [hne, if_neg (by decide)]
        · rw [if_pos (strTruthy_some_ne hne)]
          simpa using h1 fl hl hne
    · cases hn : fs.name with
      | none => simp [strTruthy]
      | some fn =>
        by_cases hne : fn = ""
        · rw [hne, if_neg (by decide)]
        · rw [if_pos (strTruthy_some_ne hne)]
          simpa using h2 fn hn hne
    · cases hi : fs.short_id with
      | none => simp [strTruthy]
      | some fi =>
        by_cases hne : fi = ""
        · rw [hne, if_neg (by decide)]
        · rw [if_pos (strTruthy_some_ne hne)]
          simpa using h3 fi hi hne

/-- Witness for C2: the equivalence instantiated at `Layer*` / `LayerABC`,
with both side conditions discharged concretely. -/
theorem C2_witness :
    codeFilterMatch "Layer*" "LayerABC" = specWildcardMatch "Layer*" "LayerABC" :=
  C2_filter_semantics.1 "Layer*" "LayerABC" (by decide) (by decide)

theorem optOr_none {α : Type} (a : Option α) : optOr a none = a := by
  cases a <;> rfl

/-- Claim C7: for every nonempty script, execute-code returns the declared
`result` variable (or the default success string when none is declared)
together with all captured prints in order; on failure it returns an error
response whose `printed_output` holds exactly the lines captured before the
error. -/
theorem C7_execute_code (code : List Stmt) (h : ¬ code = []) :
    (scriptError code = none →
      execute_rhino_code code =
        Response.execOk ((scriptResult code).getD "Code executed successfully")
          (scriptPrints code)) ∧
    (∀ m, scriptError code = some m →
      execute_rhino_code code = Response.execErr m (scriptPrints code)) := by
  have hne : code.isEmpty = false := by
    cases code with
    | nil => exact absurd rfl h
    | cons a l => rfl
  obtain ⟨h1, h2, h3⟩ := runScriptAux_spec code [] none
  constructor
  · intro he
    simp only [execute_rhino_code, hne, Bool.false_eq_true, if_false]
    rw [h2, he]
    simp only [h1, List.nil_append, h3 he, optOr_none]
  · intro m he
    simp only [execute_rhino_code, hne, Bool.false_eq_true, if_false]
    rw [h2, he]
    simp only [h1, List.nil_append]

/-- Witness for C7: the spec's end-to-end scenario
`print('hi'); result='done'`. -/
theorem C7_witness :
    execute_rhino_code [Stmt.printLn "hi", Stmt.setResult "done"] =
      Response.execOk "done" ["hi"] := by
  rw [(C7_execute_code [Stmt.printLn "hi", Stmt.setResult "done"]
    (by decide)).1 (by decide)]
  decide

/-- Claim C8: a command whose type string is outside the dispatch table is
answered with `{"status":"error","message":"Unknown command type"}`, the
document is untouched, and the connection keeps processing the next
command as if the unknown one had not happened. -/
theorem C8_unknown_command (env : Env) (doc : RhinoDoc) (t : String) (p : CmdParams)
    (h : ¬ t ∈ knownCommandTypes) :
    execute_command env doc { type := t, params := p } =
      (doc, Response.error "Unknown command type") ∧
    ∀ c₂ : Command, processMessages env doc
        [Msg.cmd { type := t, params := p }, Msg.cmd c₂] =
      [Response.error "Unknown command type", (execute_command env doc c₂).2] := by
  simp only [knownCommandTypes, List.mem_cons, List.not_mem_nil, or_false] at h
  push_neg at h
  obtain ⟨h1, h2, h3, h4, h5, h6, h7, h8, h9, h10, h11, h12, h13⟩ := h
  have hcmd : execute_command env doc { type := t, params := p } =
      (doc, Response.error "Unknown command type") := by
    simp only [execute_command, if_neg h1, if_neg h2, if_neg h3, if_neg h4,
      if_neg h5, if_neg h6, if_neg h7, if_neg h8, if_neg h9, if_neg h10,
      if_neg h11, if_neg h12, if_neg h13]
  refine ⟨hcmd, fun c₂ => ?_⟩
  simp [processMessages, hcmd]

/-- Witness for C8: the spec's `frobnicate` scenario followed by a valid
`get_rhino_layers` command on the same connection. -/
theorem C8_witness :
    execute_command plainEnv sampleDoc
        { type := "frobnicate", params := CmdParams.emptyP } =
      (sampleDoc, Response.error "Unknown command type") ∧
    processMessages plainEnv sampleDoc
        [Msg.cmd { type := "frobnicate", params := CmdParams.emptyP },
         Msg.cmd { type := "get_rhino_layers", params := CmdParams.emptyP }] =
      [Response.error "Unknown command type",
       (execute_command plainEnv sampleDoc
         { type := "get_rhino_layers", params := CmdParams.emptyP }).2] :=
  ⟨(C8_unknown_command plainEnv sampleDoc "frobnicate" CmdParams.emptyP (by decide)).1,
   (C8_unknown_command plainEnv sampleDoc "frobnicate" CmdParams.emptyP (by decide)).2
     { type := "get_rhino_layers", params := CmdParams.emptyP }⟩

/-- Claim C9, counterexample: a transport failure during
`capture_rhino_viewport` is not converted into an `"Error <doing X>:
<message>"` string — the tool's handler logs and re-raises, propagating the
exception to the caller. -/
theorem C9_counterexample :
    capture_rhino_viewport_tool (fun d => d) (Except.error "Connection refused") =
      ToolResult.raised "Connection refused" ∧
    toolReturnsValue (capture_rhino_viewport_tool (fun d => d)
      (Except.error "Connection refused")) = false :=
  ⟨rfl, rfl⟩

theorem add_meta_eq (doc : RhinoDoc) (oid : String) (name? desc? : Option String)
    (sid : String) (t : Int) (o : RhinoObject) (g : String)
    (hfind : doc.objects.find? (fun x => x.id = oid) = some o)
    (hg : o.geometry = some g) :
    add_rhino_object_metadata doc oid name? desc? sid t =
      ({ doc with
          objects := updateFirst (fun x => x.id = oid)
                       (metaUpd o name? desc? sid t g) doc.objects },
       Response.success) := by
  simp only [add_rhino_object_metadata, hfind, hg]

theorem metaUpd_userText (o : RhinoObject) (name? desc? : Option String)
    (sid : String) (t : Int) (g : String) (x : RhinoObject) :
    (metaUpd o name? desc? sid t g x).userText =
      writeAll x.userText (metaEntries o name? desc? sid t g) := rfl

theorem metaUpd_geometry (o : RhinoObject) (name? desc? : Option String)
    (sid : String) (t : Int) (g : String) (x : RhinoObject) :
    (metaUpd o name? desc? sid t g x).geometry = x.geometry := rfl

theorem metaUpd_id (o : RhinoObject) (name? desc? : Option String)
    (sid : String) (t : Int) (g : String) (x : RhinoObject) :
    (metaUpd o name? desc? sid t g x).id = x.id := rfl

theorem metaStoredName_none (g sid : String) :
    metaStoredName none g sid = g ++ "_" ++ sid := rfl

theorem metaStoredName_some {n : String} (h : ¬ n = "") (g sid : String) :
    metaStoredName (some n) g sid = n := by
  simp [metaStoredName, strTruthy_some_ne h]

theorem metaEntries_keys (o : RhinoObject) (name? desc? : Option String)
    (sid : String) (t : Int) (g : String) (hd : strTruthy desc? = true) :
    (metaEntries o name? desc? sid t g).map Prod.fst = writtenKeysWithDesc := by
  simp [metaEntries, hd, writtenKeysWithDesc]

theorem alookup_writeAll_meta_name (s : List (String × String)) (o : RhinoObject)
    (name? desc? : Option String) (sid : String) (t : Int) (g : String) :
    alookup (writeAll s (metaEntries o name? desc? sid t g)) "name" =
      some (metaStoredName name? g sid) := by
  by_cases hd : strTruthy desc? = true
  · simp only [metaEntries, hd, if_true, List.cons_append, List.nil_append,
      writeAll, List.foldl_cons, List.foldl_nil]
    rw [alookup_setUserText_other _ _ _ _ (by decide), alookup_setUserText_same]
  · have hd' : strTruthy desc? = false := by simpa using hd
    simp only [metaEntries, hd', Bool.false_eq_true, if_false, List.append_nil,
      writeAll, List.foldl_cons, List.foldl_nil]
    rw [alookup_setUserText_same]

theorem alookup_writeAll_meta_bbox (s : List (String × String)) (o : RhinoObject)
    (name? desc? : Option String) (sid : String) (t : Int) (g : String) :
    alookup (writeAll s (metaEntries o name? desc? sid t g)) "bbox" =
      some (encodeBBox ((o.bboxCorners.getD []).map (fun p => [p.x, p.y, p.z]))) := by
  by_cases hd : strTruthy desc? = true
  · simp only [metaEntries, hd, if_true, List.cons_append, List.nil_append,
      writeAll, List.foldl_cons, List.foldl_nil]
    rw [alookup_setUserText_other _ _ _ _ (by decide),
      alookup_setUserText_other _ _ _ _ (by decide), alookup_setUserText_same]
  · have hd' : strTruthy desc? = false := by simpa using hd
    simp only [metaEntries, hd', Bool.false_eq_true, if_false, List.append_nil,
      writeAll, List.foldl_cons, List.foldl_nil]
    rw [alookup_setUserText_other _ _ _ _ (by decide), alookup_setUserText_same]

/-- Claim C6: re-tagging an already-tagged object with a new description and
no name argument overwrites the stored name with a fresh auto-generated
`"{type}_{short_id}"` — so the previously assigned name is kept only if the
caller re-supplies it — while every stored key/value pair whose key the new
call does not write persists unchanged, and no stored key is ever deleted. -/
theorem C6_retag_preserves_untouched (doc : RhinoDoc) (oid sid desc : String)
    (t : Int) (o : RhinoObject) (g : String)
    (hfind : doc.objects.find? (fun x => x.id = oid) = some o)
    (hg : o.geometry = some g) (hdesc : ¬ desc = "") :
    ∃ o₁, ((add_rhino_object_metadata doc oid none (some desc) sid t).1).objects.find?
        (fun x => x.id = oid) = some o₁ ∧
      (∀ k, ¬ k ∈ writtenKeysWithDesc →
        alookup o₁.userText k = alookup o.userText k) ∧
      (∀ k, (alookup o.userText k).isSome = true →
        (alookup o₁.userText k).isSome = true) ∧
      alookup o₁.userText "name" = some (g ++ "_" ++ sid) ∧
      (∀ old, alookup o.userText "name" = some old → ¬ old = g ++ "_" ++ sid →
        ¬ alookup o₁.userText "name" = some old) ∧
      (∀ n, ¬ n = "" → ∃ o₂,
        ((add_rhino_object_metadata doc oid (some n) (some desc) sid t).1).objects.find?
            (fun x => x.id = oid) = some o₂ ∧
          alookup o₂.userText "name" = some n) := by
  have hdt : strTruthy (some desc) = true := strTruthy_some_ne hdesc
  have hpres1 : ∀ a : RhinoObject,
      (fun x : RhinoObject => decide (x.id = oid)) a = true →
      (fun x : RhinoObject => decide (x.id = oid))
        (metaUpd o none (some desc) sid t g a) = true := by
    intro a ha
    simpa [metaUpd_id] using ha
  have hpres2 : ∀ (n : String) (a : RhinoObject),
      (fun x : RhinoObject => decide (x.id = oid)) a = true →
      (fun x : RhinoObject => decide (x.id = oid))
        (metaUpd o (some n) (some desc) sid t g a) = true := by
    intro n a ha
    simpa [metaUpd_id] using ha
  rw [add_meta_eq doc oid none (some desc) sid t o g hfind hg]
  refine ⟨metaUpd o none (some desc) sid t g o,
    updateFirst_find? (fun x => x.id = oid) (metaUpd o none (some desc) sid t g)
      hpres1 doc.objects o hfind,
    ?_, ?_, ?_, ?_, ?_⟩
  · intro k hk
    rw [metaUpd_userText]
    exact alookup_writeAll_not_mem _ o.userText k
      (by rw [metaEntries_keys o none (some desc) sid t g hdt]; exact hk)
  · intro k hk
    rw [metaUpd_userText]
    exact alookup_writeAll_isSome _ o.userText k hk
  · rw [metaUpd_userText, alookup_writeAll_meta_name, metaStoredName_none]
  · intro old hold hne hcontra
    rw [metaUpd_userText, alookup_writeAll_meta_name, metaStoredName_none] at hcontra
    exact hne (Option.some.inj hcontra).symm
  · intro n hn
    rw [add_meta_eq doc oid (some n) (some desc) sid t o g hfind hg]
    exact ⟨metaUpd o (some n) (some desc) sid t g o,
      updateFirst_find? (fun x => x.id = oid) (metaUpd o (some n) (some desc) sid t g)
        (hpres2 n) doc.objects o hfind,
      by rw [metaUpd_userText, alookup_writeAll_meta_name, metaStoredName_some hn]⟩

theorem find?_id_eq : ∀ (l : List RhinoObject) (oid : String) (o : RhinoObject),
    l.find? (fun x => x.id = oid) = some o → o.id = oid := by
  intro l oid o h
  induction l with
  | nil => simp at h
  | cons x xs ih =>
    by_cases hx : x.id = oid
    · rw [List.find?_cons_of_pos _ (by simpa using hx)] at h
      injection h with h
      subst h
      exact hx
    · rw [List.find?_cons_of_neg _ (by simpa using hx)] at h
      exact ih h

theorem mkObjData_bbox_only (x : RhinoObject) (g : String) (bd : List (List Int))
    (hbb : alookup x.userText "bbox" = some (encodeBBox bd)) :
    (mkObjData x g (some ["bbox"])).metadata = some [("bbox", StoredVal.pts bd)] ∧
    (mkObjData x g (some ["bbox"])).userText = none := by
  have hstored : alookup (x.userText.map coerceStored) "bbox" =
      some (StoredVal.pts bd) := by
    rw [alookup_map_coerce, hbb]
    simp [coerceStored, parseBBox_encodeBBox]
  have h1 : listTruthy (some ["bbox"]) = true := by decide
  have h2 : ((["bbox"] : List String)).contains "user_text" = false := by decide
  constructor
  · simp [mkObjData, h1, hstored]
  · simp [mkObjData, h1, h2, hstored]

/-- Claim C5: tagging an object with add-metadata and then querying it with
`metadata_fields=["bbox"]` returns, for that object, a `bbox` decoded from
its string storage back into a point list whose count equals the object's
bounding-box corner count, and the returned entry carries no `user_text`
field. -/
theorem C5_bbox_roundtrip (doc : RhinoDoc) (oid sid : String)
    (name? desc? : Option String) (t : Int) (o : RhinoObject) (g : String)
    (cs : List Point3)
    (hfind : doc.objects.find? (fun x => x.id = oid) = some o)
    (hg : o.geometry = some g) (hb : o.bboxCorners = some cs)
    (hgeo : ∀ x ∈ doc.objects, x.geometry.isSome = true) :
    (add_rhino_object_metadata doc oid name? desc? sid t).2 = Response.success ∧
    ∃ objs, get_rhino_objects_with_metadata
        (add_rhino_object_metadata doc oid name? desc? sid t).1 noFilter
        (some ["bbox"]) =
      Response.listObjects objs.length objs allFields ∧
      ∃ e, e ∈ objs ∧ e.id = oid ∧
        e.metadata =
          some [("bbox", StoredVal.pts (cs.map (fun p => [p.x, p.y, p.z])))] ∧
        (cs.map (fun p => [p.x, p.y, p.z])).length = cs.length ∧
        e.userText = none := by
  rw [add_meta_eq doc oid name? desc? sid t o g hfind hg]
  have hgeo' : ∀ x ∈ updateFirst (fun x => x.id = oid)
      (metaUpd o name? desc? sid t g) doc.objects, x.geometry.isSome = true := by
    refine updateFirst_forall _ _ _ ?_ doc.objects hgeo
    intro x hx
    rw [metaUpd_geometry]
    exact hx
  have hval : invalidFields (some ["bbox"]) = [] := by decide
  have hq := get_objects_ok_eq
    { doc with
        objects := updateFirst (fun x => x.id = oid)
                     (metaUpd o name? desc? sid t g) doc.objects }
    noFilter (some ["bbox"]) hval hgeo'
  refine ⟨rfl, _, hq, ?_⟩
  refine ⟨mkObjData (metaUpd o name? desc? sid t g o) g (some ["bbox"]), ?_, ?_, ?_, ?_, ?_⟩
  · apply List.mem_filterMap.mpr
    refine ⟨metaUpd o name? desc? sid t g o, ?_, ?_⟩
    · apply List.mem_filter.mpr
      exact ⟨updateFirst_mem _ _ doc.objects o hfind, passesFilters_noFilter _⟩
    · rw [metaUpd_geometry, hg]
      rfl
  · rw [mkObjData_id, metaUpd_id]
    exact find?_id_eq doc.objects oid o hfind
  · have hbb : alookup (metaUpd o name? desc? sid t g o).userText "bbox" =
        some (encodeBBox ((cs.map (fun p => [p.x, p.y, p.z])))) := by
      rw [metaUpd_userText, alookup_writeAll_meta_bbox, hb]
      rfl
    exact (mkObjData_bbox_only _ g _ hbb).1
  · rw [List.length_map]
  · have hbb : alookup (metaUpd o name? desc? sid t g o).userText "bbox" =
        some (encodeBBox ((cs.map (fun p => [p.x, p.y, p.z])))) := by
      rw [metaUpd_userText, alookup_writeAll_meta_bbox, hb]
      rfl
    exact (mkObjData_bbox_only _ g _ hbb).2

/-- Witness for C5 on a concrete box with eight corners. -/
theorem C5_witness :
    (add_rhino_object_metadata sampleDoc "o1" none (some "a cube")
        "01020304" 1712).2 = Response.success :=
  (C5_bbox_roundtrip sampleDoc "o1" "01020304" none (some "a cube") 1712 sampleBox
    "Box" [⟨0, 0, 0⟩, ⟨1, 0, 0⟩, ⟨1, 1, 0⟩, ⟨0, 1, 0⟩,
           ⟨0, 0, 1⟩, ⟨1, 0, 1⟩, ⟨1, 1, 1⟩, ⟨0, 1, 1⟩]
    (by decide) rfl rfl (by decide)).1

theorem annotate_dots_ge (env : Env) (ln : Option String) (base : Nat) :
    ∀ (os : List RhinoObject) (c : Nat),
    ∀ d ∈ (annotateObjects env ln base os c).2.1, base + c ≤ d := by
  intro os
  induction os with
  | nil =>
    intro c d hd
    simp [annotateObjects] at hd
  | cons o os ih =>
    intro c d hd
    rw [annotateObjects] at hd
    split at hd
    · dsimp only at hd
      exact ih c d hd
    · split at hd
      · dsimp only at hd
        exact ih c d hd
      · split at hd
        · dsimp only [List.mem_cons] at hd
          rw [List.mem_cons] at hd
          rcases hd with rfl | hm
          · exact Nat.le_refl _
          · have := ih (c + 1) d hm
            omega
        · dsimp only at hd
          simp at hd

theorem filter_not_mem_eq_self (a b : List Nat) (h : ∀ d ∈ a, ¬ d ∈ b) :
    a.filter (fun d => ¬ d ∈ b) = a := by
  apply List.filter_eq_self.mpr
  intro x hx
  exact decide_eq_true (h x hx)

theorem filter_self_mem_nil (b : List Nat) :
    b.filter (fun d => ¬ d ∈ b) = [] := by
  cases hf : b.filter (fun d => ¬ d ∈ b) with
  | nil => rfl
  | cons x xs =>
    have hx : x ∈ b.filter (fun d => ¬ d ∈ b) := by
      rw [hf]
      exact List.mem_cons_self _ _
    have h1 := List.mem_of_mem_filter hx
    have h2 := List.of_mem_filter hx
    rw [decide_eq_true_eq] at h2
    exact absurd h1 h2

/-- Claim C10, counterexample: on a document with two annotatable objects
and a host on which the second `rs.AddTextDot` fails, the capture call exits
through the outer `except` with the first temporary dot still present in the
document — the cleanup `finally` only guards the capture phase, not the
annotation loop. -/
theorem C10_counterexample :
    ((capture_rhino_viewport failSecondDotEnv docTwoBoxes none true 800).1).dots =
      [0] ∧
    ¬ ((capture_rhino_viewport failSecondDotEnv docTwoBoxes none true 800).1).dots =
      docTwoBoxes.dots := by
  exact ⟨by decide, by decide⟩

/-- Claim C10 (amended: the document's current-layer setting is restored on
every exit path; the temporary annotation dots are all deleted on every exit
path on which the annotation-creation loop itself raised no error — in
particular on capture/encode failures, via the `finally` — but an error
raised while creating the dots leaks the dots already created). -/
theorem C10_cleanup (env : Env) (doc : RhinoDoc) (layerName : Option String)
    (showAnn : Bool) (maxSize : Int)
    (hd : ∀ d ∈ doc.dots, d < doc.nextDotId) :
    ((capture_rhino_viewport env doc layerName showAnn maxSize).1).currentLayer =
      doc.currentLayer ∧
    (captureAnnotationError env doc layerName showAnn = none →
      ((capture_rhino_viewport env doc layerName showAnn maxSize).1).dots =
        doc.dots) := by
  by_cases hs : showAnn = true
  · subst hs
    cases hE : (annotateObjects env layerName doc.nextDotId doc.objects 0).2.2 with
    | some e =>
      have hAE : captureAnnotationError env doc layerName true = some e := by
        simp only [captureAnnotationError, if_true]
        exact hE
      constructor
      · simp only [capture_rhino_viewport, if_true]
        rw [hE]
      · intro habs
        rw [hAE] at habs
        cases habs
    | none =>
      have hdisj : ∀ d ∈ doc.dots,
          ¬ d ∈ (annotateObjects env layerName doc.nextDotId doc.objects 0).2.1 := by
        intro d hdd hmem
        have := annotate_dots_ge env layerName doc.nextDotId doc.objects 0 d hmem
        have := hd d hdd
        omega
      have hfil : (doc.dots ++
            (annotateObjects env layerName doc.nextDotId doc.objects 0).2.1).filter
          (fun d => ¬ d ∈ (annotateObjects env layerName doc.nextDotId
            doc.objects 0).2.1) = doc.dots := by
        rw [List.filter_append, filter_not_mem_eq_self _ _ hdisj, filter_self_mem_nil,
          List.append_nil]
      cases hB : env.bitmap with
      | none =>
        constructor
        · simp only [capture_rhino_viewport, if_true]
          rw [hE, hB]
        · intro _
          simp only [capture_rhino_viewport, if_true]
          rw [hE, hB]
          exact hfil
      | some wh =>
        constructor
        · simp only [capture_rhino_viewport, if_true]
          rw [hE, hB]
        · intro _
          simp only [capture_rhino_viewport, if_true]
          rw [hE, hB]
          exact hfil
  · have hs' : showAnn = false := by simpa using hs
    subst hs'
    cases hB : env.bitmap with
    | none =>
      constructor
      · simp only [capture_rhino_viewport, Bool.false_eq_true, if_false]
        rw [hB]
      · intro _
        simp only [capture_rhino_viewport, Bool.false_eq_true, if_false]
        rw [hB]
        exact filter_not_mem_eq_self _ _ (by simp)
    | some wh =>
      constructor
      · simp only [capture_rhino_viewport, Bool.false_eq_true, if_false]
        rw [hB]
      · intro _
        simp only [capture_rhino_viewport, Bool.false_eq_true, if_false]
        rw [hB]
        exact filter_not_mem_eq_self _ _ (by simp)

/-- Witness for C10 on a concrete document with pre-existing state and a
benign host: the current layer and the dot pool are restored. -/
theorem C10_witness :
    ((capture_rhino_viewport plainEnv docTwoBoxes none true 800).1).currentLayer =
      docTwoBoxes.currentLayer ∧
    ((capture_rhino_viewport plainEnv docTwoBoxes none true 800).1).dots =
      docTwoBoxes.dots :=
  ⟨(C10_cleanup plainEnv docTwoBoxes none true 800 (by decide)).1,
   (C10_cleanup plainEnv docTwoBoxes none true 800 (by decide)).2 (by decide)⟩

/-- Witness for C6 on a concrete tagged object: the auto-generated name
replaces the old one, and the untouched `note` key survives. -/
theorem C6_witness :
    (((add_rhino_object_metadata taggedDoc "o5" none (some "new desc")
        "22222222" 99).1).objects.find? (fun x => x.id = "o5")).map
      (fun o₁ => alookup o₁.userText "name") =
      some (some ("Box" ++ "_" ++ "22222222")) ∧
    (((add_rhino_object_metadata taggedDoc "o5" none (some "new desc")
        "22222222" 99).1).objects.find? (fun x => x.id = "o5")).map
      (fun o₁ => alookup o₁.userText "note") =
      some (alookup taggedObj.userText "note") := by
  obtain ⟨o₁, hf, hun, hsome, hnm, hkeep, hres⟩ :=
    C6_retag_preserves_untouched taggedDoc "o5" "22222222" "new desc" 99 taggedObj
      "Box" (by decide) rfl (by decide)
  rw [hf]
  exact ⟨by simp [hnm], by simp [hun "note" (by decide)]⟩

/-- Claim C9 (amended: every socket-backed tool except
`capture_rhino_viewport` converts any failure — transport error,
error-status response, decode failure, all of which `send_command` raises —
into a human-readable `"Error <doing X>: <message>"` string;
`capture_rhino_viewport` logs and re-raises instead). -/
theorem C9_error_strings :
    (∀ e : String,
      get_rhino_scene_info_tool (Except.error e) =
        ToolResult.text ("Error getting scene info: " ++ e) ∧
      get_rhino_layers_tool (Except.error e) =
        ToolResult.text ("Error getting layers: " ++ e) ∧
      get_rhino_objects_with_metadata_tool (Except.error e) =
        ToolResult.text ("Error getting objects with metadata: " ++ e) ∧
      execute_rhino_code_tool (Except.error e) =
        ToolResult.text ("Error executing code: " ++ e) ∧
      get_rhino_selected_objects_tool (Except.error e) =
        ToolResult.text ("Error getting selected objects: " ++ e)) ∧
    (∀ (e : String) (png : String → String),
      capture_rhino_viewport_tool png (Except.error e) = ToolResult.raised e) :=
  ⟨fun _ => ⟨rfl, rfl, rfl, rfl, rfl⟩, fun _ _ => rfl⟩

end RhinoMCP
